import Mathlib

/-!
# REDHAWK `psd` component: parameter box, stream worker and supervisor

A shallow embedding of `cpp/psd.cpp`.

* `float` / `double` values are exact rationals (`ℚ`).
* `size_t` fields are naturals; the two places where the source subtracts
  in `size_t` (`fftSize-overlap`, `fftSz/2-1`) reduce modulo `2 ^ 64`.
* The FFT primitive (`RealPsd`, `ComplexPsd`) and `log10` are external and
  are taken as a parameter (`Kernel`).
* The rolling averager (`VectorMean`) is external and follows its contract.
* Calls made on the collaborating objects (`outFFT`, `outPSD`, `vecMean_`)
  are collected, in program order, in a list of `Call`s.
-/

namespace Psd

/-! ## Machine arithmetic -/

/-- Number of values of a `size_t` (LP64). -/
def SIZE_MOD : Nat := 2 ^ 64

/-- Subtraction of two `size_t` values, as the hardware does it. -/
def sizeSub (a b : Nat) : Nat := (a % SIZE_MOD + SIZE_MOD - b % SIZE_MOD) % SIZE_MOD

/-- Conversion of an `int` to `size_t`. -/
def intToSize (i : Int) : Nat := (i % (SIZE_MOD : Int)).toNat

/-! ## Parameter box -/

/-- The record behind `params` and `params_cache`.  The field types are those of
the constructor and setter arguments they are assigned from (`size_t fftSize`,
`int overlap`, `size_t numAvg`, `float logCoeff`). -/
structure Params where
  fftSz : Nat
  fftSzChanged : Bool
  overlap : Int
  strideSize : Nat
  numAverage : Nat
  numAverageChanged : Bool
  logCoeff : ℚ
  doFFT : Bool
  doPSD : Bool
  rfFreqUnits : Bool
  updateSRI : Bool
deriving DecidableEq

/-- The block at the top of `PsdProcessor::serviceFunction` (lines 195-209),
on the pair `(params, params_cache)`; returns the new pair. -/
def snapshot (params params_cache : Params) : Params × Params :=
  let tmp := params_cache.updateSRI
  let cache := params
  let cache := { cache with updateSRI := params.updateSRI || tmp }
  let live := { params with fftSzChanged := false, numAverageChanged := false,
                            updateSRI := false }
  (live, cache)

/-! ## Collaborators -/

/-- The units `BULKIO::UNITS_TIME` and `BULKIO::UNITS_FREQUENCY`. -/
inductive Units where
  | UNITS_TIME
  | UNITS_FREQUENCY
deriving DecidableEq

/-- The fields of `BULKIO::StreamSRI` that `updateSRI` assigns. -/
structure StreamSRI where
  xstart : ℚ
  xdelta : ℚ
  xunits : Units
  subsize : Nat
  ydelta : ℚ
  yunits : Units
  mode : Nat
deriving DecidableEq

/-- A `bulkio::FloatDataBlock` as the worker reads it: the floats, the
complex flag, the input `xdelta`, the SRI-changed and queue-flushed flags, the
two RF keywords (present with an integer value, or absent) and the time of the
first timestamp. -/
structure Block where
  data : List ℚ
  complex : Bool
  xdelta : ℚ
  sriChanged : Bool
  inputQueueFlushed : Bool
  CHAN_RF : Option Int
  COL_RF : Option Int
  time : ℚ
deriving DecidableEq

/-- What the input stream answers during one iteration: `in.ready()`, the
result of `in.read` (`none` when `!block`) and `in.eos()`. -/
structure Input where
  ready : Bool
  block : Option Block
  eos : Bool
deriving DecidableEq

/-- Calls on the collaborating objects, in program order. -/
inductive Call where
  | vecMean_setAvgNum (k : Nat)
  | vecMean_clear
  | vecMean_run (emitted : Bool)
  | outFFT_sri (s : StreamSRI)
  | outPSD_sri (s : StreamSRI)
  | outPSD_write (v : List ℚ) (t : ℚ)
  | outFFT_write (v : List ℚ) (t : ℚ)
deriving DecidableEq

/-- Return codes of a service function. -/
inductive Ret where
  | NOOP
  | FINISH
  | NORMAL
deriving DecidableEq

/-- The external numerical routines.  `realRun n x` and `complexRun n x` are
`run()` of a `RealPsd` / `ComplexPsd` of length `n` on the input buffer `x`,
giving the contents of `psdOut_` and `fftOut_`; `log10` is the C function. -/
structure Kernel where
  realRun : Nat → List ℚ → List ℚ × List (ℚ × ℚ)
  complexRun : Nat → List (ℚ × ℚ) → List ℚ × List (ℚ × ℚ)
  log10 : ℚ → ℚ

/-- Output shapes of the FFT primitive (spec 4.1): on an input buffer of `n`
samples the real variant gives `n/2+1` bins, the complex variant `n` bins. -/
def Kernel.Shaped (k : Kernel) : Prop :=
  (∀ n x, x.length = n →
      (k.realRun n x).1.length = n / 2 + 1 ∧ (k.realRun n x).2.length = n / 2 + 1) ∧
  (∀ n x, x.length = n →
      (k.complexRun n x).1.length = n ∧ (k.complexRun n x).2.length = n)

/-- Modelled from the spec: the rolling averager `VectorMean` (spec 4.2), whose
class is not part of `psd.cpp`.  `count` is the number of `run()` calls since
the last reset, `sum` the running sum of their inputs. -/
structure VectorMean where
  avgNum : Nat
  count : Nat
  sum : List ℚ
deriving DecidableEq

/-- Modelled from the spec: `clear()` resets the accumulator and zeroes the
counter. -/
def VectorMean.clear (v : VectorMean) : VectorMean :=
  { v with count := 0, sum := [] }

/-- Modelled from the spec: `setAvgNum(K)` sets the count and implies a reset. -/
def VectorMean.setAvgNum (_v : VectorMean) (k : Nat) : VectorMean :=
  { avgNum := k, count := 0, sum := [] }

/-- Running sum after one more input. -/
def VectorMean.accumulate (v : VectorMean) (input : List ℚ) : List ℚ :=
  if v.count = 0 then input else List.zipWith (· + ·) v.sum input

/-- Modelled from the spec: `run()` returns `true` exactly on every K-th call
since the last reset, and then the output holds the element-wise mean of the
last K inputs.  The result is the new averager and the output when emitted. -/
def VectorMean.run (v : VectorMean) (input : List ℚ) : VectorMean × Option (List ℚ) :=
  if v.count + 1 = v.avgNum then
    ({ v with count := 0, sum := [] },
      some ((v.accumulate input).map (fun x => x / (v.avgNum : ℚ))))
  else
    ({ v with count := v.count + 1, sum := v.accumulate input }, none)

/-! ## Helper methods (lines 41-61) -/

/-- The method `std::vector::resize`. -/
def resize {α : Type} (l : List α) (n : Nat) (d : α) : List α :=
  l.take n ++ List.replicate (n - l.length) d

/-- Overload `copyVec(block, RealFFTWVector&)`: the floats of the block. -/
def copyVecReal (block : Block) : List ℚ := block.data

/-- Pairs up interleaved floats; a trailing odd float is dropped, as
`cxsize()` rounds down. -/
def toComplex : List ℚ → List (ℚ × ℚ)
  | re :: im :: rest => (re, im) :: toComplex rest
  | _ => []

/-- Overload `copyVec(block, ComplexFFTWVector&)`: `block.cxsize()` complex samples. -/
def copyVecComplex (block : Block) : List (ℚ × ℚ) := toComplex block.data

/-- Overload `copyVec(const vector<float>&, vector<float>&)`: a plain copy. -/
def copyVec (v : List ℚ) : List ℚ := v

/-- Overload `copyVec(const vector<complex<float>>&, vector<float>&)`: `2*in.size()`
floats, the real then the imaginary part of each element. -/
def copyVecCx : List (ℚ × ℚ) → List ℚ
  | [] => []
  | (re, im) :: rest => re :: im :: copyVecCx rest

/-! ## PsdProcessor -/

/-- The state of one `PsdProcessor`.  `realPsd_` / `complexPsd_` are `none`
for `NULL` and `some n` for a transform object of length `n`. -/
structure PsdProcessor where
  params : Params
  params_cache : Params
  realPsd_ : Option Nat
  complexPsd_ : Option Nat
  vecMean_ : VectorMean
  realIn_ : List ℚ
  complexIn_ : List (ℚ × ℚ)
  psdOut_ : List ℚ
  fftOut_ : List (ℚ × ℚ)
  psdAverage_ : List ℚ
  psdOutVec : List ℚ
  fftOutVec : List ℚ
  eos : Bool
deriving DecidableEq

/-- The constructor (lines 70-104).  `params_cache` is not initialised by it;
`uninit` stands for whatever it holds. -/
def PsdProcessor.new (fftSize : Nat) (overlap : Int) (numAvg : Nat) (logCoeff : ℚ)
    (doFFT doPSD rfFreqUnits : Bool) (uninit : Params) : PsdProcessor :=
  { params :=
      { fftSz := fftSize
        fftSzChanged := true
        strideSize := sizeSub fftSize (intToSize overlap)
        numAverage := numAvg
        numAverageChanged := true
        overlap := overlap
        doFFT := doFFT
        doPSD := doPSD
        rfFreqUnits := rfFreqUnits
        logCoeff := logCoeff
        updateSRI := true }
    params_cache := uninit
    realPsd_ := none
    complexPsd_ := none
    vecMean_ := { avgNum := numAvg, count := 0, sum := [] }
    realIn_ := []
    complexIn_ := []
    psdOut_ := []
    fftOut_ := []
    psdAverage_ := []
    psdOutVec := []
    fftOutVec := []
    eos := false }

/-- Lines 116-123. -/
def PsdProcessor.updateFftSize (w : PsdProcessor) (fftSize : Nat) : PsdProcessor :=
  { w with params :=
    { w.params with
      fftSz := fftSize
      strideSize := sizeSub fftSize (intToSize w.params.overlap)
      fftSzChanged := true
      updateSRI := true } }

/-- Lines 124-131. -/
def PsdProcessor.updateOverlap (w : PsdProcessor) (overlap : Int) : PsdProcessor :=
  { w with params :=
    { w.params with
      overlap := overlap
      strideSize := sizeSub w.params.fftSz (intToSize overlap)
      updateSRI := true } }

/-- Lines 132-138. -/
def PsdProcessor.updateNumAvg (w : PsdProcessor) (avg : Nat) : PsdProcessor :=
  { w with params :=
    { w.params with numAverage := avg, numAverageChanged := true, updateSRI := true } }

/-- Lines 140-144. -/
def PsdProcessor.forceSRIUpdate (w : PsdProcessor) : PsdProcessor :=
  { w with params := { w.params with updateSRI := true } }

/-- Lines 146-151. -/
def PsdProcessor.updateActions (w : PsdProcessor) (psd fft : Bool) : PsdProcessor :=
  { w with params := { w.params with doPSD := psd, doFFT := fft } }

/-- Lines 153-158. -/
def PsdProcessor.updateRfFreqUnits (w : PsdProcessor) (enable : Bool) : PsdProcessor :=
  { w with params := { w.params with rfFreqUnits := enable, updateSRI := true } }

/-- Lines 160-164. -/
def PsdProcessor.updateLogCoefficient (w : PsdProcessor) (logCoeff : ℚ) : PsdProcessor :=
  { w with params := { w.params with logCoeff := logCoeff } }

/-- Lines 166-169. -/
def PsdProcessor.finished (w : PsdProcessor) : Bool := w.eos

/-- The method `flush()` (lines 178-190): both transform pointers become `NULL`. -/
def PsdProcessor.flush (w : PsdProcessor) : PsdProcessor :=
  { w with realPsd_ := none, complexPsd_ := none }

/-! ### `PsdProcessor::updateSRI` (lines 358-415) -/

/-- The helper `getKeywordByID<CORBA::Long>(sri, id, valid)` on a keyword that is present
with an integer value or absent: the value and the `valid` flag. -/
def getKeywordByID (kw : Option Int) : Int × Bool :=
  match kw with
  | some v => (v, true)
  | none => (0, false)

/-- The assignment `outputSRI.xdelta = 1.0/(xdelta_in*params_cache.fftSz)`. -/
def updateSRI_xdelta (p : Params) (block : Block) : ℚ :=
  1 / (block.xdelta * (p.fftSz : ℚ))

/-- The local `ifStart`; `fftSz/2-1` is a `size_t` expression. -/
def updateSRI_ifStart (p : Params) (block : Block) : ℚ :=
  if block.complex then
    -(((sizeSub (p.fftSz / 2) 1 : Nat) : ℚ) * updateSRI_xdelta p block)
  else 0

/-- The locals `rfCentre` and `validRF` after the two keyword look-ups. -/
def updateSRI_rfCentre (block : Block) : Int × Bool :=
  let r := getKeywordByID block.CHAN_RF
  if !r.2 then getKeywordByID block.COL_RF else r

/-- The local `ifCentre`. -/
def updateSRI_ifCentre (block : Block) : ℚ :=
  if !block.complex then 1 / block.xdelta / 4 else 0

/-- The local `deltaF = rfCentre-ifCentre`. -/
def updateSRI_deltaF (block : Block) : ℚ :=
  ((updateSRI_rfCentre block).1 : ℚ) - updateSRI_ifCentre block

/-- The final `validRF`: set only inside the `rfFreqUnits` branch. -/
def updateSRI_validRF (p : Params) (block : Block) : Bool :=
  if p.rfFreqUnits then (updateSRI_rfCentre block).2 else false

/-- The value assigned to `outputSRI.xstart`. -/
def updateSRI_xstart (p : Params) (block : Block) : ℚ :=
  if updateSRI_validRF p block then
    updateSRI_ifStart p block + updateSRI_deltaF block
  else updateSRI_ifStart p block

/-- The SRI handed to `outFFT.sri`. -/
def updateSRI_fft (p : Params) (block : Block) : StreamSRI :=
  { xstart := updateSRI_xstart p block
    xdelta := updateSRI_xdelta p block
    subsize := if !block.complex then p.fftSz / 2 + 1 else p.fftSz
    ydelta := block.xdelta * (p.strideSize : ℚ)
    yunits := Units.UNITS_TIME
    xunits := Units.UNITS_FREQUENCY
    mode := 1 }

/-- The SRI handed to `outPSD.sri`. -/
def updateSRI_psd (p : Params) (block : Block) : StreamSRI :=
  let outputSRI := updateSRI_fft p block
  let outputSRI :=
    if p.numAverage > 2 then
      { outputSRI with ydelta := outputSRI.ydelta * (p.numAverage : ℚ) }
    else outputSRI
  { outputSRI with mode := 0 }

/-- The method `updateSRI(block)`: the two pushes, computed from `params_cache`. -/
def PsdProcessor.updateSRI (w : PsdProcessor) (block : Block) : List Call :=
  [Call.outFFT_sri (updateSRI_fft w.params_cache block),
   Call.outPSD_sri (updateSRI_psd w.params_cache block)]

/-! ### `PsdProcessor::serviceFunction` (lines 192-356) -/

/-- Lines 195-209: update the cached copy of `params`. -/
def PsdProcessor.updateCache (w : PsdProcessor) : PsdProcessor :=
  { w with params := (snapshot w.params w.params_cache).1
           params_cache := (snapshot w.params w.params_cache).2 }

/-- Lines 212-226: resize after a change of the FFT size. -/
def PsdProcessor.updateFftStructures (w : PsdProcessor) : PsdProcessor :=
  if w.params_cache.fftSzChanged then
    let w := { w with params_cache := { w.params_cache with fftSzChanged := false } }
    if w.realPsd_.isSome then
      { w with realIn_ := resize w.realIn_ w.params_cache.fftSz 0
               psdOut_ := resize w.psdOut_ (w.params_cache.fftSz / 2 + 1) 0
               fftOut_ := resize w.fftOut_ (w.params_cache.fftSz / 2 + 1) (0, 0)
               realPsd_ := some w.params_cache.fftSz }
    else if w.complexPsd_.isSome then
      { w with complexIn_ := resize w.complexIn_ w.params_cache.fftSz (0, 0)
               psdOut_ := resize w.psdOut_ w.params_cache.fftSz 0
               fftOut_ := resize w.fftOut_ w.params_cache.fftSz (0, 0)
               complexPsd_ := some w.params_cache.fftSz }
    else w
  else w

/-- Lines 228-232: reconfigure the averager after a change of `numAverage`. -/
def PsdProcessor.updateAvgStructures (w : PsdProcessor) : PsdProcessor × List Call :=
  if w.params_cache.numAverageChanged then
    ({ w with params_cache := { w.params_cache with numAverageChanged := false }
              vecMean_ := w.vecMean_.setAvgNum w.params_cache.numAverage },
     [Call.vecMean_setAvgNum w.params_cache.numAverage])
  else (w, [])

/-- Lines 262-296: set up the transform for the mode of the block and run it.
A transform of the other mode is deleted; a missing one is constructed with
length `params_cache.fftSz` and the averager is cleared. -/
def PsdProcessor.calculate (k : Kernel) (w : PsdProcessor) (block : Block) :
    PsdProcessor × List Call :=
  if block.complex then
    let w := { w with realPsd_ := none }
    let fresh := w.complexPsd_.isNone
    let n := w.complexPsd_.getD w.params_cache.fftSz
    let w := if fresh then { w with complexPsd_ := some n, vecMean_ := w.vecMean_.clear } else w
    let w := { w with complexIn_ := copyVecComplex block }
    let r := k.complexRun n w.complexIn_
    ({ w with psdOut_ := r.1, fftOut_ := r.2 }, if fresh then [Call.vecMean_clear] else [])
  else
    let w := { w with complexPsd_ := none }
    let fresh := w.realPsd_.isNone
    let n := w.realPsd_.getD w.params_cache.fftSz
    let w := if fresh then { w with realPsd_ := some n, vecMean_ := w.vecMean_.clear } else w
    let w := { w with realIn_ := copyVecReal block }
    let r := k.realRun n w.realIn_
    ({ w with psdOut_ := r.1, fftOut_ := r.2 }, if fresh then [Call.vecMean_clear] else [])

/-- Lines 300-308: the averaged or per-block PSD goes to `psdOutVec`. -/
def PsdProcessor.averagePsd (w : PsdProcessor) : PsdProcessor × List Call :=
  if w.params_cache.numAverage > 1 then
    match (w.vecMean_.run w.psdOut_).2 with
    | some avg =>
      ({ w with vecMean_ := (w.vecMean_.run w.psdOut_).1
                psdAverage_ := avg
                psdOutVec := copyVec avg }, [Call.vecMean_run true])
    | none =>
      ({ w with vecMean_ := (w.vecMean_.run w.psdOut_).1
                psdOutVec := [] }, [Call.vecMean_run false])
  else ({ w with psdOutVec := copyVec w.psdOut_ }, [])

/-- Lines 310-313: the log of the output, if necessary. -/
def PsdProcessor.logPsd (k : Kernel) (w : PsdProcessor) : PsdProcessor :=
  if w.params_cache.logCoeff > 0 then
    { w with psdOutVec := w.psdOutVec.map (fun x => w.params_cache.logCoeff * k.log10 x) }
  else w

/-- Lines 299-314. -/
def PsdProcessor.psdPath (k : Kernel) (w : PsdProcessor) : PsdProcessor × List Call :=
  if w.params_cache.doPSD then
    ((w.averagePsd.1).logPsd k, w.averagePsd.2)
  else (w, [])

/-- Lines 317-319. -/
def PsdProcessor.fftPath (w : PsdProcessor) : PsdProcessor :=
  if w.params_cache.doFFT then { w with fftOutVec := copyVecCx w.fftOut_ } else w

/-- Lines 322-332. -/
def PsdProcessor.sriPath (w : PsdProcessor) (block : Block) : PsdProcessor × List Call :=
  if w.params_cache.updateSRI || block.sriChanged then
    let w := { w with params_cache := { w.params_cache with updateSRI := false } }
    (w, w.updateSRI block)
  else (w, [])

/-- Lines 339-347: the two guarded writes. -/
def PsdProcessor.output (w : PsdProcessor) (block : Block) : List Call :=
  (if w.params_cache.doPSD && !w.psdOutVec.isEmpty then
    [Call.outPSD_write w.psdOutVec block.time] else []) ++
  (if w.params_cache.doFFT && !w.fftOutVec.isEmpty then
    [Call.outFFT_write w.fftOutVec block.time] else [])

/-- Lines 256-347: everything done with a block once it has been read. -/
def PsdProcessor.processBlock (k : Kernel) (w : PsdProcessor) (block : Block) :
    PsdProcessor × List Call :=
  let w := if block.inputQueueFlushed then w.flush else w
  let c := w.calculate k block
  let p := c.1.psdPath k
  let f := p.1.fftPath
  let s := f.sriPath block
  (s.1, c.2 ++ p.2 ++ s.2 ++ s.1.output block)

/-- Lines 195-232: everything done before the read. -/
def PsdProcessor.configure (w : PsdProcessor) : PsdProcessor × List Call :=
  (w.updateCache.updateFftStructures).updateAvgStructures

/-- One iteration of the worker loop: the new state, the calls made on the
collaborators and the return code. -/
def PsdProcessor.serviceFunction (k : Kernel) (w : PsdProcessor) (inp : Input) :
    PsdProcessor × List Call × Ret :=
  let u := w.configure
  if !inp.ready then (u.1, u.2, Ret.NOOP)
  else
    match inp.block with
    | none =>
      if inp.eos then ({ u.1 with eos := true }, u.2, Ret.FINISH)
      else (u.1, u.2, Ret.NOOP)
    | some block =>
      let r := u.1.processBlock k block
      if inp.eos then ({ r.1 with eos := true }, u.2 ++ r.2, Ret.FINISH)
      else (r.1, u.2 ++ r.2, Ret.NORMAL)

/-! ## Supervisor `psd_i` -/

/-- The properties of the component, the two output gates and the map from
stream ID to worker. -/
structure psd_i where
  fftSize : Nat
  overlap : Int
  numAvg : Nat
  rfFreqUnits : Bool
  logCoefficient : ℚ
  doPSD : Bool
  doFFT : Bool
  stateMap : List (String × PsdProcessor)
deriving DecidableEq

/-- The loop `for (i = stateMap.begin(); ...) i->second->f(...)`. -/
def psd_i.forAll (s : psd_i) (f : PsdProcessor → PsdProcessor) : psd_i :=
  { s with stateMap := s.stateMap.map (fun e => (e.1, f e.2)) }

/-- Lines 642-650; the setter receives the member `fftSize`. -/
def psd_i.fftSizeChanged (s : psd_i) (oldValue newValue : Nat) : psd_i :=
  if oldValue != newValue then s.forAll (fun w => w.updateFftSize s.fftSize) else s

/-- Lines 652-659; the setter receives the member `numAvg`. -/
def psd_i.numAvgChanged (s : psd_i) (oldValue newValue : Nat) : psd_i :=
  if oldValue != newValue then s.forAll (fun w => w.updateNumAvg s.numAvg) else s

/-- Lines 661-668; the setter receives the member `overlap`. -/
def psd_i.overlapChanged (s : psd_i) (oldValue newValue : Int) : psd_i :=
  if oldValue != newValue then s.forAll (fun w => w.updateOverlap s.overlap) else s

/-- Lines 670-677; the setter receives the member `rfFreqUnits`. -/
def psd_i.rfFreqUnitsChanged (s : psd_i) (oldValue newValue : Bool) : psd_i :=
  if oldValue != newValue then s.forAll (fun w => w.updateRfFreqUnits s.rfFreqUnits) else s

/-- Lines 679-686; the setter receives the member `logCoefficient`. -/
def psd_i.logCoeffChanged (s : psd_i) (oldValue newValue : ℚ) : psd_i :=
  if oldValue != newValue then s.forAll (fun w => w.updateLogCoefficient s.logCoefficient)
  else s

/-! ## Runs of the worker loop -/

/-- The two SRI pushes among the calls. -/
def Call.isSri : Call → Bool
  | Call.outFFT_sri _ => true
  | Call.outPSD_sri _ => true
  | _ => false

/-- An iteration that returns before processing: the input is not ready or
the read gave no block. -/
def Input.early (inp : Input) : Bool := !inp.ready || inp.block.isNone

/-- Consecutive calls of `serviceFunction`, one per input; the calls made on
the collaborators are concatenated. -/
def PsdProcessor.serviceLoop (k : Kernel) : PsdProcessor → List Input → PsdProcessor × List Call
  | w, [] => (w, [])
  | w, inp :: rest =>
    ((PsdProcessor.serviceLoop k (w.serviceFunction k inp).1 rest).1,
     (w.serviceFunction k inp).2.1 ++
       (PsdProcessor.serviceLoop k (w.serviceFunction k inp).1 rest).2)

/-- The writers that request an SRI update (lines 116-158). -/
inductive SriRequest where
  | updateFftSize (fftSize : Nat)
  | updateOverlap (overlap : Int)
  | updateNumAvg (avg : Nat)
  | updateRfFreqUnits (enable : Bool)
  | forceSRIUpdate

/-- The worker after the call of the writer. -/
def PsdProcessor.request (w : PsdProcessor) : SriRequest → PsdProcessor
  | SriRequest.updateFftSize n => w.updateFftSize n
  | SriRequest.updateOverlap o => w.updateOverlap o
  | SriRequest.updateNumAvg a => w.updateNumAvg a
  | SriRequest.updateRfFreqUnits b => w.updateRfFreqUnits b
  | SriRequest.forceSRIUpdate => w.forceSRIUpdate

/-- The PSD writes among the calls. -/
def Call.isPsdWrite : Call → Bool
  | Call.outPSD_write _ _ => true
  | _ => false

/-- The FFT writes among the calls. -/
def Call.isFftWrite : Call → Bool
  | Call.outFFT_write _ _ => true
  | _ => false

/-- The `setAvgNum` calls among the calls. -/
def Call.isSetAvgNum : Call → Bool
  | Call.vecMean_setAvgNum _ => true
  | _ => false

/-- The transform pointer that serves blocks of the given mode. -/
def PsdProcessor.transform (w : PsdProcessor) (cx : Bool) : Option Nat :=
  if cx then w.complexPsd_ else w.realPsd_

/-- Between iterations at most one transform exists, and it has the length of
the live `fftSz` unless a change of the FFT size is pending. -/
def PsdProcessor.Coherent (w : PsdProcessor) : Prop :=
  (w.realPsd_ = none ∨ w.complexPsd_ = none) ∧
  ∀ n, w.realPsd_ = some n ∨ w.complexPsd_ = some n →
    w.params.fftSzChanged = true ∨ n = w.params.fftSz

/-- The block holds exactly `n` samples: `n` floats when real, `2*n` floats
when complex. -/
def Block.sized (b : Block) (n : Nat) : Bool :=
  if b.complex then b.data.length == 2 * n else b.data.length == n

/-- The input is ready and the read delivers a block of mode `cx` with exactly
`n` samples and without the queue-flushed flag. -/
def Input.steady (cx : Bool) (n : Nat) (inp : Input) : Bool :=
  inp.ready &&
    match inp.block with
    | some b => (b.complex == cx) && !b.inputQueueFlushed && b.sized n
    | none => false

/-- The averager as the next iteration finds it after lines 228-232. -/
def PsdProcessor.nextVecMean (w : PsdProcessor) : VectorMean :=
  if w.params.numAverageChanged then w.vecMean_.setAvgNum w.params.numAverage else w.vecMean_

/-- A worker with `numAverage = K`, `fftSz = N` and `doPSD` on that has
processed `j` blocks of mode `cx` since its averager was last reset: the
averager is (or will be, by a pending `setAvgNum`) configured for `K`, and when
it is in use it has counted `j mod K` inputs and is not due to be cleared. -/
def PsdProcessor.InRun (w : PsdProcessor) (K N : Nat) (cx : Bool) (j : Nat) : Prop :=
  w.params.numAverage = K ∧ w.params.doPSD = true ∧ w.params.fftSz = N ∧ w.Coherent ∧
  w.nextVecMean.avgNum = K ∧
  (1 < K → w.nextVecMean.count = j % K ∧
    (w.nextVecMean.count = 0 ∨
      ((w.transform cx).isSome = true ∧ w.nextVecMean.sum ≠ [])))

/-- The states a worker can be in: the constructor's, and those reached from
it by the writers, `flush()` and iterations of the worker loop. -/
inductive PsdProcessor.Reachable (k : Kernel) : PsdProcessor → Prop where
  | new (fftSize : Nat) (overlap : Int) (numAvg : Nat) (logCoeff : ℚ)
      (doFFT doPSD rfFreqUnits : Bool) (uninit : Params) :
      PsdProcessor.Reachable k
        (PsdProcessor.new fftSize overlap numAvg logCoeff doFFT doPSD rfFreqUnits uninit)
  | updateFftSize {w : PsdProcessor} (fftSize : Nat) :
      PsdProcessor.Reachable k w → PsdProcessor.Reachable k (w.updateFftSize fftSize)
  | updateOverlap {w : PsdProcessor} (overlap : Int) :
      PsdProcessor.Reachable k w → PsdProcessor.Reachable k (w.updateOverlap overlap)
  | updateNumAvg {w : PsdProcessor} (avg : Nat) :
      PsdProcessor.Reachable k w → PsdProcessor.Reachable k (w.updateNumAvg avg)
  | forceSRIUpdate {w : PsdProcessor} :
      PsdProcessor.Reachable k w → PsdProcessor.Reachable k w.forceSRIUpdate
  | updateActions {w : PsdProcessor} (psd fft : Bool) :
      PsdProcessor.Reachable k w → PsdProcessor.Reachable k (w.updateActions psd fft)
  | updateRfFreqUnits {w : PsdProcessor} (enable : Bool) :
      PsdProcessor.Reachable k w → PsdProcessor.Reachable k (w.updateRfFreqUnits enable)
  | updateLogCoefficient {w : PsdProcessor} (logCoeff : ℚ) :
      PsdProcessor.Reachable k w → PsdProcessor.Reachable k (w.updateLogCoefficient logCoeff)
  | flush {w : PsdProcessor} :
      PsdProcessor.Reachable k w → PsdProcessor.Reachable k w.flush
  | serviceFunction {w : PsdProcessor} (inp : Input) :
      PsdProcessor.Reachable k w → PsdProcessor.Reachable k (w.serviceFunction k inp).1

/-- The states of the parameter box: the constructor's, and those reached
from it by the seven writers and by the worker's snapshot
(`updateCache`, lines 195-209). -/
inductive PsdProcessor.BoxReachable : PsdProcessor → Prop where
  | new (fftSize : Nat) (overlap : Int) (numAvg : Nat) (logCoeff : ℚ)
      (doFFT doPSD rfFreqUnits : Bool) (uninit : Params) :
      PsdProcessor.BoxReachable
        (PsdProcessor.new fftSize overlap numAvg logCoeff doFFT doPSD rfFreqUnits uninit)
  | updateFftSize {w : PsdProcessor} (fftSize : Nat) :
      PsdProcessor.BoxReachable w → PsdProcessor.BoxReachable (w.updateFftSize fftSize)
  | updateOverlap {w : PsdProcessor} (overlap : Int) :
      PsdProcessor.BoxReachable w → PsdProcessor.BoxReachable (w.updateOverlap overlap)
  | updateNumAvg {w : PsdProcessor} (avg : Nat) :
      PsdProcessor.BoxReachable w → PsdProcessor.BoxReachable (w.updateNumAvg avg)
  | forceSRIUpdate {w : PsdProcessor} :
      PsdProcessor.BoxReachable w → PsdProcessor.BoxReachable w.forceSRIUpdate
  | updateActions {w : PsdProcessor} (psd fft : Bool) :
      PsdProcessor.BoxReachable w → PsdProcessor.BoxReachable (w.updateActions psd fft)
  | updateRfFreqUnits {w : PsdProcessor} (enable : Bool) :
      PsdProcessor.BoxReachable w → PsdProcessor.BoxReachable (w.updateRfFreqUnits enable)
  | updateLogCoefficient {w : PsdProcessor} (logCoeff : ℚ) :
      PsdProcessor.BoxReachable w →
        PsdProcessor.BoxReachable (w.updateLogCoefficient logCoeff)
  | updateCache {w : PsdProcessor} :
      PsdProcessor.BoxReachable w → PsdProcessor.BoxReachable w.updateCache

/-- The stride relation of the live record: `strideSize` is `fftSz - overlap`
as computed in `size_t`. -/
def Params.StrideOk (p : Params) : Prop :=
  p.strideSize = sizeSub p.fftSz (intToSize p.overlap)

/-- The `clear()` calls on the averager among the calls. -/
def Call.isClear : Call → Bool
  | Call.vecMean_clear => true
  | _ => false

/-- The `run()` calls on the averager among the calls. -/
def Call.isRun : Call → Bool
  | Call.vecMean_run _ => true
  | _ => false

/-- The `clear()` and `run()` calls on the averager among the calls. -/
def Call.isClearOrRun (c : Call) : Bool := c.isClear || c.isRun

/-- Whether an iteration that processes `b` constructs a transform: the
pointer for the mode of the block is `NULL` when line 263 is reached, because
it was so before or because `flush()` has just run. -/
def PsdProcessor.constructs (w : PsdProcessor) (b : Block) : Bool :=
  b.inputQueueFlushed || (w.transform b.complex).isNone

/-! ## Sample objects -/

/-- A kernel of the right shapes that computes the zero-frequency bin only:
the sum of the samples, and its squared magnitude; every other bin is zero.
Its `log10` is exact at 1 only. -/
def dcKernel : Kernel :=
  { realRun := fun n x =>
      ((x.sum * x.sum) :: List.replicate (n / 2) 0,
       (x.sum, 0) :: List.replicate (n / 2) (0, 0))
    complexRun := fun n x =>
      (resize [(x.map Prod.fst).sum * (x.map Prod.fst).sum
                + (x.map Prod.snd).sum * (x.map Prod.snd).sum] n 0,
       resize [((x.map Prod.fst).sum, (x.map Prod.snd).sum)] n (0, 0))
    log10 := fun _ => 0 }

/-- A parameter record with every field zero or false. -/
def zeroParams : Params :=
  { fftSz := 0, fftSzChanged := false, overlap := 0, strideSize := 0, numAverage := 0,
    numAverageChanged := false, logCoeff := 0, doFFT := false, doPSD := false,
    rfFreqUnits := false, updateSRI := false }

/-- A real block of `n` samples of value 1 with `xdelta = 1/8000`, no keyword
and no flag set. -/
def onesBlock (n : Nat) : Block :=
  { data := List.replicate n 1, complex := false, xdelta := 1 / 8000, sriChanged := false,
    inputQueueFlushed := false, CHAN_RF := none, COL_RF := none, time := 0 }

/-- An iteration whose input is not ready. -/
def notReady : Input := { ready := false, block := none, eos := false }

/-- An iteration whose read delivers the block. -/
def delivers (b : Block) : Input := { ready := true, block := some b, eos := false }

/-- A freshly constructed worker: `fftSize = 8`, `overlap = 0`, `numAvg`
as given, log scaling off, both outputs on, `rfFreqUnits` off. -/
def freshWorker (numAvg : Nat) : PsdProcessor :=
  PsdProcessor.new 8 0 numAvg 0 true true false zeroParams

/-- Scenario 3 of the spec: `rfFreqUnits` on, `N = 8`. -/
def scenario3Params : Params :=
  { zeroParams with fftSz := 8, strideSize := 8, numAverage := 1, rfFreqUnits := true }

/-- Scenario 3 of the spec: a real block with `xdelta_in = 1/8000` and
`CHAN_RF = 100000`. -/
def scenario3Block : Block :=
  { onesBlock 8 with CHAN_RF := some 100000 }

/-- A complex block of one sample with `xdelta_in = 1` and no keyword. -/
def oneSampleComplexBlock : Block :=
  { data := [1, 0], complex := true, xdelta := 1, sriChanged := false,
    inputQueueFlushed := false, CHAN_RF := none, COL_RF := none, time := 0 }

/-- A supervisor with one active worker that was configured with
`fftSize = 8`, `overlap = 0`, `numAvg = 1`; its properties are as given. -/
def oneWorkerSupervisor (fftSize : Nat) (overlap : Int) (numAvg : Nat) : psd_i :=
  { fftSize := fftSize, overlap := overlap, numAvg := numAvg, rfFreqUnits := false,
    logCoefficient := 0, doPSD := true, doFFT := true,
    stateMap := [("stream", freshWorker 1)] }

/-- The output writes among the calls, on either stream. -/
def Call.isWrite (c : Call) : Bool := c.isPsdWrite || c.isFftWrite

/-- A worker that has processed one real block of 8 ones with both outputs
on, after which both outputs went idle (`updateActions(false, false)`); its
outbound vectors still hold the data of that block. -/
def idleAfterBlock : PsdProcessor :=
  (((freshWorker 1).serviceFunction dcKernel (delivers (onesBlock 8))).1).updateActions
    false false

/-- A real block of `n` ones that carries the queue-flushed flag. -/
def flushedBlock (n : Nat) : Block :=
  { onesBlock n with inputQueueFlushed := true }

/-- Scenario 4 of the spec: a worker with `numAvg = 4` that has processed two
real blocks of 8 ones. -/
def afterTwoBlocks : PsdProcessor :=
  ((freshWorker 4).serviceLoop dcKernel [delivers (onesBlock 8), delivers (onesBlock 8)]).1

/-! ## Theorems -/

/-- C1: the parameter snapshot copies every non-flag field and the two
edge-triggered flags from the live record into the cache, ORs the live
`updateSRI` with the previously cached one, and leaves the live record
unchanged but for `fftSzChanged`, `numAverageChanged` and `updateSRI`, which
become false. -/
theorem snapshot_spec (params params_cache : Params) :
    let live := (snapshot params params_cache).1
    let cache := (snapshot params params_cache).2
    (cache.fftSz = params.fftSz ∧ cache.overlap = params.overlap ∧
      cache.strideSize = params.strideSize ∧ cache.numAverage = params.numAverage ∧
      cache.logCoeff = params.logCoeff ∧ cache.doFFT = params.doFFT ∧
      cache.doPSD = params.doPSD ∧ cache.rfFreqUnits = params.rfFreqUnits) ∧
    (cache.fftSzChanged = params.fftSzChanged ∧
      cache.numAverageChanged = params.numAverageChanged) ∧
    cache.updateSRI = (params.updateSRI || params_cache.updateSRI) ∧
    (live.fftSzChanged = false ∧ live.numAverageChanged = false ∧
      live.updateSRI = false) ∧
    (live.fftSz = params.fftSz ∧ live.overlap = params.overlap ∧
      live.strideSize = params.strideSize ∧ live.numAverage = params.numAverage ∧
      live.logCoeff = params.logCoeff ∧ live.doFFT = params.doFFT ∧
      live.doPSD = params.doPSD ∧ live.rfFreqUnits = params.rfFreqUnits) := by
  simp [snapshot]

/-! ### Facts about one iteration -/

theorem updateFftStructures_frame (w : PsdProcessor) :
    w.updateFftStructures.params = w.params ∧
    w.updateFftStructures.params_cache
      = { w.params_cache with fftSzChanged := false } ∧
    w.updateFftStructures.vecMean_ = w.vecMean_ ∧
    w.updateFftStructures.psdOutVec = w.psdOutVec ∧
    w.updateFftStructures.fftOutVec = w.fftOutVec ∧
    w.updateFftStructures.eos = w.eos := by
  unfold PsdProcessor.updateFftStructures
  cases hc : w.params_cache.fftSzChanged
  · simp
    cases hp : w.params_cache
    simp_all
  · cases w.realPsd_ <;> cases w.complexPsd_ <;> simp

theorem updateAvgStructures_frame (w : PsdProcessor) :
    w.updateAvgStructures.1.params = w.params ∧
    w.updateAvgStructures.1.params_cache
      = { w.params_cache with numAverageChanged := false } ∧
    w.updateAvgStructures.1.realPsd_ = w.realPsd_ ∧
    w.updateAvgStructures.1.complexPsd_ = w.complexPsd_ ∧
    w.updateAvgStructures.1.psdOutVec = w.psdOutVec ∧
    w.updateAvgStructures.1.fftOutVec = w.fftOutVec ∧
    w.updateAvgStructures.1.eos = w.eos := by
  unfold PsdProcessor.updateAvgStructures
  cases hc : w.params_cache.numAverageChanged
  · simp
    cases hp : w.params_cache
    simp_all
  · simp

theorem updateAvgStructures_calls (w : PsdProcessor) :
    w.updateAvgStructures.2.filter Call.isSri = [] := by
  unfold PsdProcessor.updateAvgStructures
  split <;> simp [Call.isSri]

/-- The SRI request across the part of an iteration that precedes the read. -/
theorem prepare_frame (w : PsdProcessor) :
    w.configure.1.params.updateSRI = false ∧
    w.configure.1.params_cache.updateSRI
      = (w.params.updateSRI || w.params_cache.updateSRI) ∧
    w.configure.2.filter Call.isSri = [] := by
  unfold PsdProcessor.configure
  refine ⟨?_, ?_, updateAvgStructures_calls _⟩
  · rw [(updateAvgStructures_frame _).1, (updateFftStructures_frame _).1]
    simp [PsdProcessor.updateCache, snapshot]
  · rw [(updateAvgStructures_frame _).2.1, (updateFftStructures_frame _).2.1]
    simp [PsdProcessor.updateCache, snapshot]

theorem serviceFunction_early (k : Kernel) (w : PsdProcessor) (inp : Input)
    (h : inp.early = true) :
    (w.serviceFunction k inp).1.params.updateSRI = false ∧
    (w.serviceFunction k inp).1.params_cache.updateSRI
      = (w.params.updateSRI || w.params_cache.updateSRI) ∧
    (w.serviceFunction k inp).2.1.filter Call.isSri = [] := by
  have hp := prepare_frame w
  unfold PsdProcessor.serviceFunction
  cases hr : inp.ready
  · simpa using hp
  · cases hb : inp.block with
    | none =>
      cases he : inp.eos
      · simpa using hp
      · simpa using hp
    | some b => simp [Input.early, hr, hb] at h

theorem flush_frame (w : PsdProcessor) :
    w.flush.params = w.params ∧ w.flush.params_cache = w.params_cache ∧
    w.flush.vecMean_ = w.vecMean_ ∧ w.flush.psdOutVec = w.psdOutVec ∧
    w.flush.fftOutVec = w.fftOutVec := by
  simp [PsdProcessor.flush]

theorem calculate_frame (k : Kernel) (w : PsdProcessor) (b : Block) :
    (w.calculate k b).1.params = w.params ∧
    (w.calculate k b).1.params_cache = w.params_cache ∧
    (w.calculate k b).1.psdOutVec = w.psdOutVec ∧
    (w.calculate k b).1.fftOutVec = w.fftOutVec ∧
    (w.calculate k b).2.filter Call.isSri = [] := by
  unfold PsdProcessor.calculate
  cases b.complex <;> cases w.realPsd_ <;> cases w.complexPsd_ <;> simp [Call.isSri]

theorem averagePsd_frame (w : PsdProcessor) :
    w.averagePsd.1.params = w.params ∧
    w.averagePsd.1.params_cache = w.params_cache ∧
    w.averagePsd.1.realPsd_ = w.realPsd_ ∧
    w.averagePsd.1.complexPsd_ = w.complexPsd_ ∧
    w.averagePsd.1.psdOut_ = w.psdOut_ ∧
    w.averagePsd.1.fftOut_ = w.fftOut_ ∧
    w.averagePsd.1.fftOutVec = w.fftOutVec ∧
    w.averagePsd.2.filter Call.isSri = [] := by
  unfold PsdProcessor.averagePsd
  split
  · split <;> simp [Call.isSri]
  · simp

theorem logPsd_frame (k : Kernel) (w : PsdProcessor) :
    (w.logPsd k).params = w.params ∧
    (w.logPsd k).params_cache = w.params_cache ∧
    (w.logPsd k).realPsd_ = w.realPsd_ ∧
    (w.logPsd k).complexPsd_ = w.complexPsd_ ∧
    (w.logPsd k).vecMean_ = w.vecMean_ ∧
    (w.logPsd k).psdOut_ = w.psdOut_ ∧
    (w.logPsd k).fftOut_ = w.fftOut_ ∧
    (w.logPsd k).fftOutVec = w.fftOutVec ∧
    (w.logPsd k).psdOutVec.length = w.psdOutVec.length := by
  unfold PsdProcessor.logPsd
  split <;> simp

theorem psdPath_frame (k : Kernel) (w : PsdProcessor) :
    (w.psdPath k).1.params = w.params ∧
    (w.psdPath k).1.params_cache = w.params_cache ∧
    (w.psdPath k).1.realPsd_ = w.realPsd_ ∧
    (w.psdPath k).1.complexPsd_ = w.complexPsd_ ∧
    (w.psdPath k).1.psdOut_ = w.psdOut_ ∧
    (w.psdPath k).1.fftOut_ = w.fftOut_ ∧
    (w.psdPath k).1.fftOutVec = w.fftOutVec ∧
    (w.psdPath k).2.filter Call.isSri = [] := by
  unfold PsdProcessor.psdPath
  have ha := averagePsd_frame w
  have hl := logPsd_frame k w.averagePsd.1
  split
  · simp only []
    refine ⟨?_, ?_, ?_, ?_, ?_, ?_, ?_, ha.2.2.2.2.2.2.2⟩
    · rw [hl.1, ha.1]
    · rw [hl.2.1, ha.2.1]
    · rw [hl.2.2.1, ha.2.2.1]
    · rw [hl.2.2.2.1, ha.2.2.2.1]
    · rw [hl.2.2.2.2.2.1, ha.2.2.2.2.1]
    · rw [hl.2.2.2.2.2.2.1, ha.2.2.2.2.2.1]
    · rw [hl.2.2.2.2.2.2.2.1, ha.2.2.2.2.2.2.1]
  · simp

theorem fftPath_frame (w : PsdProcessor) :
    w.fftPath.params = w.params ∧
    w.fftPath.params_cache = w.params_cache ∧
    w.fftPath.realPsd_ = w.realPsd_ ∧
    w.fftPath.complexPsd_ = w.complexPsd_ ∧
    w.fftPath.vecMean_ = w.vecMean_ ∧
    w.fftPath.psdOut_ = w.psdOut_ ∧
    w.fftPath.fftOut_ = w.fftOut_ ∧
    w.fftPath.psdOutVec = w.psdOutVec := by
  unfold PsdProcessor.fftPath
  split <;> simp

theorem sriPath_frame (w : PsdProcessor) (b : Block) :
    (w.sriPath b).1.params = w.params ∧
    (w.sriPath b).1.params_cache = { w.params_cache with updateSRI := false } ∧
    (w.sriPath b).1.realPsd_ = w.realPsd_ ∧
    (w.sriPath b).1.complexPsd_ = w.complexPsd_ ∧
    (w.sriPath b).1.vecMean_ = w.vecMean_ ∧
    (w.sriPath b).1.psdOutVec = w.psdOutVec ∧
    (w.sriPath b).1.fftOutVec = w.fftOutVec := by
  unfold PsdProcessor.sriPath
  cases hu : w.params_cache.updateSRI <;> cases hs : b.sriChanged <;> simp
  cases hp : w.params_cache
  simp_all

theorem sriPath_calls (w : PsdProcessor) (b : Block) :
    (w.sriPath b).2 =
      if w.params_cache.updateSRI || b.sriChanged then (w.sriPath b).1.updateSRI b
      else [] := by
  unfold PsdProcessor.sriPath
  split <;> simp

theorem output_no_sri (w : PsdProcessor) (b : Block) :
    (w.output b).filter Call.isSri = [] := by
  unfold PsdProcessor.output
  split <;> split <;> simp [Call.isSri]

theorem updateSRI_all_sri (w : PsdProcessor) (b : Block) :
    (w.updateSRI b).filter Call.isSri = w.updateSRI b := by
  simp [PsdProcessor.updateSRI, Call.isSri]

/-- What `processBlock` does to the parameter box and which SRI pushes it
makes. -/
theorem processBlock_sri (k : Kernel) (w : PsdProcessor) (b : Block) :
    (w.processBlock k b).1.params = w.params ∧
    (w.processBlock k b).1.params_cache = { w.params_cache with updateSRI := false } ∧
    (w.processBlock k b).2.filter Call.isSri =
      if w.params_cache.updateSRI || b.sriChanged then (w.processBlock k b).1.updateSRI b
      else [] := by
  have hcache : ∀ v : PsdProcessor,
      (((v.calculate k b).1.psdPath k).1.fftPath).params_cache = v.params_cache := by
    intro v
    rw [(fftPath_frame _).2.1, (psdPath_frame k _).2.1, (calculate_frame k v b).2.1]
  have hparams : ∀ v : PsdProcessor,
      (((v.calculate k b).1.psdPath k).1.fftPath).params = v.params := by
    intro v
    rw [(fftPath_frame _).1, (psdPath_frame k _).1, (calculate_frame k v b).1]
  have hflush : (if b.inputQueueFlushed then w.flush else w).params = w.params ∧
      (if b.inputQueueFlushed then w.flush else w).params_cache = w.params_cache := by
    split <;> simp [PsdProcessor.flush]
  unfold PsdProcessor.processBlock
  simp only []
  refine ⟨?_, ?_, ?_⟩
  · rw [(sriPath_frame _ b).1, hparams, hflush.1]
  · rw [(sriPath_frame _ b).2.1, hcache, hflush.2]
  · simp only [List.filter_append, (calculate_frame k _ b).2.2.2.2,
      (psdPath_frame k _).2.2.2.2.2.2.2, output_no_sri, List.append_nil, List.nil_append]
    rw [sriPath_calls, hcache, hflush.2]
    split
    · exact updateSRI_all_sri _ b
    · rfl

theorem serviceFunction_block (k : Kernel) (w : PsdProcessor) (inp : Input) (b : Block)
    (hr : inp.ready = true) (hb : inp.block = some b) :
    (w.serviceFunction k inp).1.params.updateSRI = false ∧
    (w.serviceFunction k inp).1.params_cache.updateSRI = false ∧
    (w.serviceFunction k inp).2.1.filter Call.isSri =
      if w.params.updateSRI || w.params_cache.updateSRI || b.sriChanged then
        [Call.outFFT_sri (updateSRI_fft (w.serviceFunction k inp).1.params_cache b),
         Call.outPSD_sri (updateSRI_psd (w.serviceFunction k inp).1.params_cache b)]
      else [] := by
  have hp := prepare_frame w
  have hs := processBlock_sri k w.configure.1 b
  unfold PsdProcessor.serviceFunction
  simp only [hr, hb, Bool.not_true, Bool.false_eq_true, if_false]
  cases he : inp.eos
  · simp only [Bool.false_eq_true, if_false, List.filter_append, hp.2.2, List.nil_append]
    refine ⟨?_, ?_, ?_⟩
    · rw [hs.1]; exact hp.1
    · rw [hs.2.1]
    · rw [hs.2.2, hp.2.1]; rfl
  · simp only [if_true, List.filter_append, hp.2.2, List.nil_append]
    refine ⟨?_, ?_, ?_⟩
    · rw [hs.1]; exact hp.1
    · rw [hs.2.1]
    · rw [hs.2.2, hp.2.1]; rfl

theorem serviceLoop_early (k : Kernel) (idle : List Input) :
    ∀ w : PsdProcessor, idle.all Input.early = true →
      ((w.serviceLoop k idle).1.params.updateSRI || (w.serviceLoop k idle).1.params_cache.updateSRI)
        = (w.params.updateSRI || w.params_cache.updateSRI) ∧
      (w.serviceLoop k idle).2.filter Call.isSri = [] := by
  induction idle with
  | nil => intro w _; simp [PsdProcessor.serviceLoop]
  | cons inp rest ih =>
    intro w h
    rw [List.all_cons, Bool.and_eq_true] at h
    have h1 := serviceFunction_early k w inp h.1
    have h2 := ih (w.serviceFunction k inp).1 h.2
    simp only [PsdProcessor.serviceLoop, List.filter_append, h1.2.2, h2.2, List.append_nil]
    refine ⟨?_, trivial⟩
    rw [h2.1, h1.1, h1.2.1]
    simp

theorem request_updateSRI (w : PsdProcessor) (r : SriRequest) :
    (w.request r).params.updateSRI = true := by
  cases r <;> rfl

/-- C2: an SRI-update request is served exactly once.  After any of the
requesting writers, and after construction, a run of early-returning iterations
pushes no SRI and the first iteration that processes a block makes the two
pushes of one `updateSRI(block)`; an iteration that processes a block with no
pending request and no SRI change pushes nothing; after a processed block the
cached `updateSRI` is false, and so no later run of early iterations followed by
a block without SRI change pushes again. -/
theorem sri_request_served_once (k : Kernel) (w : PsdProcessor) (r : SriRequest)
    (fftSize : Nat) (overlap : Int) (numAvg : Nat) (logCoeff : ℚ)
    (doFFT doPSD rfFreqUnits : Bool) (uninit : Params)
    (idle later : List Input) (inp next : Input) (b c : Block)
    (hidle : idle.all Input.early = true)
    (hready : inp.ready = true) (hblock : inp.block = some b)
    (hlater : later.all Input.early = true)
    (hnext : next.ready = true) (hnextb : next.block = some c)
    (hsame : c.sriChanged = false) :
    (∀ w0 : PsdProcessor,
      w0 = w.request r ∨
        w0 = PsdProcessor.new fftSize overlap numAvg logCoeff doFFT doPSD rfFreqUnits uninit →
      ((w0.serviceLoop k idle).2.filter Call.isSri = [] ∧
       ((w0.serviceLoop k idle).1.serviceFunction k inp).2.1.filter Call.isSri =
        [Call.outFFT_sri (updateSRI_fft
            ((w0.serviceLoop k idle).1.serviceFunction k inp).1.params_cache b),
         Call.outPSD_sri (updateSRI_psd
            ((w0.serviceLoop k idle).1.serviceFunction k inp).1.params_cache b)])) ∧
    (w.params.updateSRI = false → w.params_cache.updateSRI = false → b.sriChanged = false →
      (w.serviceFunction k inp).2.1.filter Call.isSri = []) ∧
    (w.serviceFunction k inp).1.params_cache.updateSRI = false ∧
    (((w.serviceFunction k inp).1.serviceLoop k later).2.filter Call.isSri = [] ∧
     ((((w.serviceFunction k inp).1.serviceLoop k later).1.serviceFunction k next).2.1.filter
        Call.isSri = [])) := by
  refine ⟨?_, ?_, (serviceFunction_block k w inp b hready hblock).2.1, ?_, ?_⟩
  · intro w0 hw0
    have hpend : (w0.params.updateSRI || w0.params_cache.updateSRI) = true := by
      rcases hw0 with h | h
      · rw [h, request_updateSRI]; rfl
      · rw [h]; rfl
    have hl := serviceLoop_early k idle w0 hidle
    refine ⟨hl.2, ?_⟩
    rw [(serviceFunction_block k _ inp b hready hblock).2.2]
    rw [hl.1] at *
    simp [hpend]
  · intro h1 h2 h3
    rw [(serviceFunction_block k w inp b hready hblock).2.2]
    simp [h1, h2, h3]
  · exact (serviceLoop_early k later _ hlater).2
  · have hb := serviceFunction_block k w inp b hready hblock
    have hl := serviceLoop_early k later (w.serviceFunction k inp).1 hlater
    rw [(serviceFunction_block k _ next c hnext hnextb).2.2, hl.1, hb.1, hb.2.1, hsame]
    simp

theorem sri_request_served_once_witness :
    [notReady, notReady].all Input.early = true ∧
    (delivers (onesBlock 8)).ready = true ∧
    (delivers (onesBlock 8)).block = some (onesBlock 8) ∧
    (((freshWorker 4).updateNumAvg 2).serviceLoop dcKernel [notReady, notReady]).2.filter
        Call.isSri = [] ∧
    (((freshWorker 4).serviceFunction dcKernel (delivers (onesBlock 8))).1.params_cache.updateSRI
        = false) :=
  ⟨rfl, rfl, rfl,
   ((sri_request_served_once dcKernel (freshWorker 4) (SriRequest.updateNumAvg 2)
      8 0 4 0 true true false zeroParams [notReady, notReady] [notReady]
      (delivers (onesBlock 8)) (delivers (onesBlock 8)) (onesBlock 8) (onesBlock 8)
      rfl rfl rfl rfl rfl rfl rfl).1 _ (Or.inl rfl)).1,
   (sri_request_served_once dcKernel (freshWorker 4) (SriRequest.updateNumAvg 2)
      8 0 4 0 true true false zeroParams [notReady, notReady] [notReady]
      (delivers (onesBlock 8)) (delivers (onesBlock 8)) (onesBlock 8) (onesBlock 8)
      rfl rfl rfl rfl rfl rfl rfl).2.2.1⟩

/-! ### The state after the pre-read part of an iteration -/

theorem configure_cache (w : PsdProcessor) :
    w.configure.1.params_cache =
      { w.params with fftSzChanged := false, numAverageChanged := false,
                      updateSRI := (w.params.updateSRI || w.params_cache.updateSRI) } ∧
    w.configure.1.params =
      { w.params with fftSzChanged := false, numAverageChanged := false,
                      updateSRI := false } := by
  unfold PsdProcessor.configure
  rw [(updateAvgStructures_frame _).2.1, (updateFftStructures_frame _).2.1,
    (updateAvgStructures_frame _).1, (updateFftStructures_frame _).1]
  simp [PsdProcessor.updateCache, snapshot]

theorem configure_vecMean (w : PsdProcessor) :
    w.configure.1.vecMean_ =
      if w.params.numAverageChanged then w.vecMean_.setAvgNum w.params.numAverage
      else w.vecMean_ := by
  have hf := updateFftStructures_frame w.updateCache
  have hcond : w.updateCache.updateFftStructures.params_cache.numAverageChanged
      = w.params.numAverageChanged := by rw [hf.2.1]; rfl
  have hnum : w.updateCache.updateFftStructures.params_cache.numAverage
      = w.params.numAverage := by rw [hf.2.1]; rfl
  have hv : w.updateCache.updateFftStructures.vecMean_ = w.vecMean_ := by rw [hf.2.2.1]; rfl
  unfold PsdProcessor.configure PsdProcessor.updateAvgStructures
  rw [hcond]
  cases h : w.params.numAverageChanged <;> simp [hnum, hv]

theorem configure_vectors (w : PsdProcessor) :
    w.configure.1.psdOutVec = w.psdOutVec ∧ w.configure.1.fftOutVec = w.fftOutVec := by
  unfold PsdProcessor.configure
  rw [(updateAvgStructures_frame _).2.2.2.2.1, (updateAvgStructures_frame _).2.2.2.2.2.1,
    (updateFftStructures_frame _).2.2.2.1, (updateFftStructures_frame _).2.2.2.2.1]
  simp [PsdProcessor.updateCache]

theorem configure_transform (w : PsdProcessor) :
    w.configure.1.realPsd_.isSome = w.realPsd_.isSome ∧
    w.configure.1.complexPsd_.isSome = w.complexPsd_.isSome ∧
    (w.Coherent → ∀ n, w.configure.1.realPsd_ = some n ∨ w.configure.1.complexPsd_ = some n →
      n = w.params.fftSz) := by
  unfold PsdProcessor.configure
  rw [(updateAvgStructures_frame _).2.2.1, (updateAvgStructures_frame _).2.2.2.1]
  unfold PsdProcessor.updateFftStructures PsdProcessor.Coherent
  cases hc : w.params.fftSzChanged <;> cases hr : w.realPsd_ <;> cases hx : w.complexPsd_ <;>
    simp [PsdProcessor.updateCache, snapshot, hc, hr, hx]

/-! ### The PSD and FFT writes of a processed block -/

theorem calculate_no_write (k : Kernel) (w : PsdProcessor) (b : Block) :
    (w.calculate k b).2.filter Call.isPsdWrite = [] ∧
    (w.calculate k b).2.filter Call.isFftWrite = [] := by
  unfold PsdProcessor.calculate
  cases b.complex <;> cases w.realPsd_ <;> cases w.complexPsd_ <;>
    simp [Call.isPsdWrite, Call.isFftWrite]

theorem psdPath_no_write (k : Kernel) (w : PsdProcessor) :
    (w.psdPath k).2.filter Call.isPsdWrite = [] ∧
    (w.psdPath k).2.filter Call.isFftWrite = [] := by
  unfold PsdProcessor.psdPath PsdProcessor.averagePsd
  split
  · split
    · split <;> simp [Call.isPsdWrite, Call.isFftWrite]
    · simp
  · simp

theorem sriPath_no_write (w : PsdProcessor) (b : Block) :
    (w.sriPath b).2.filter Call.isPsdWrite = [] ∧
    (w.sriPath b).2.filter Call.isFftWrite = [] := by
  unfold PsdProcessor.sriPath
  split <;> simp [PsdProcessor.updateSRI, Call.isPsdWrite, Call.isFftWrite]

theorem output_writes (w : PsdProcessor) (b : Block) :
    (w.output b).filter Call.isPsdWrite =
      (if w.params_cache.doPSD && !w.psdOutVec.isEmpty then
        [Call.outPSD_write w.psdOutVec b.time] else []) ∧
    (w.output b).filter Call.isFftWrite =
      (if w.params_cache.doFFT && !w.fftOutVec.isEmpty then
        [Call.outFFT_write w.fftOutVec b.time] else []) := by
  unfold PsdProcessor.output
  constructor <;> split <;> split <;> simp_all [Call.isPsdWrite, Call.isFftWrite]

/-- The writes of `processBlock`, in terms of the state it ends in. -/
theorem processBlock_writes (k : Kernel) (w : PsdProcessor) (b : Block) :
    (w.processBlock k b).2.filter Call.isPsdWrite =
      (if w.params_cache.doPSD && !(w.processBlock k b).1.psdOutVec.isEmpty then
        [Call.outPSD_write (w.processBlock k b).1.psdOutVec b.time] else []) ∧
    (w.processBlock k b).2.filter Call.isFftWrite =
      (if w.params_cache.doFFT && !(w.processBlock k b).1.fftOutVec.isEmpty then
        [Call.outFFT_write (w.processBlock k b).1.fftOutVec b.time] else []) := by
  have hc := (processBlock_sri k w b).2.1
  have hd : (w.processBlock k b).1.params_cache.doPSD = w.params_cache.doPSD := by rw [hc]
  have hf : (w.processBlock k b).1.params_cache.doFFT = w.params_cache.doFFT := by rw [hc]
  have ho := output_writes (w.processBlock k b).1 b
  rw [hd, hf] at ho
  rw [← ho.1, ← ho.2]
  unfold PsdProcessor.processBlock
  simp only [List.filter_append, (calculate_no_write k _ b).1, (calculate_no_write k _ b).2,
    (psdPath_no_write k _).1, (psdPath_no_write k _).2, (sriPath_no_write _ b).1,
    (sriPath_no_write _ b).2, List.nil_append]
  exact ⟨trivial, trivial⟩

/-- The part of the state that `processBlock` takes over from the PSD and FFT
paths. -/
theorem processBlock_state (k : Kernel) (w : PsdProcessor) (b : Block) :
    (w.processBlock k b).1.psdOutVec =
      (((if b.inputQueueFlushed then w.flush else w).calculate k b).1.psdPath k).1.psdOutVec ∧
    (w.processBlock k b).1.vecMean_ =
      (((if b.inputQueueFlushed then w.flush else w).calculate k b).1.psdPath k).1.vecMean_ ∧
    (w.processBlock k b).1.realPsd_ =
      ((if b.inputQueueFlushed then w.flush else w).calculate k b).1.realPsd_ ∧
    (w.processBlock k b).1.complexPsd_ =
      ((if b.inputQueueFlushed then w.flush else w).calculate k b).1.complexPsd_ ∧
    (w.processBlock k b).1.fftOutVec =
      ((((if b.inputQueueFlushed then w.flush else w).calculate k b).1.psdPath k).1.fftPath).fftOutVec := by
  unfold PsdProcessor.processBlock
  simp only []
  refine ⟨?_, ?_, ?_, ?_, ?_⟩
  · rw [(sriPath_frame _ b).2.2.2.2.2.1, (fftPath_frame _).2.2.2.2.2.2.2]
  · rw [(sriPath_frame _ b).2.2.2.2.1, (fftPath_frame _).2.2.2.2.1]
  · rw [(sriPath_frame _ b).2.2.1, (fftPath_frame _).2.2.1, (psdPath_frame k _).2.2.1]
  · rw [(sriPath_frame _ b).2.2.2.1, (fftPath_frame _).2.2.2.1, (psdPath_frame k _).2.2.2.1]
  · rw [(sriPath_frame _ b).2.2.2.2.2.2]

theorem toComplex_length : ∀ l : List ℚ, (toComplex l).length = l.length / 2
  | [] => rfl
  | [_] => by simp [toComplex]
  | _ :: _ :: rest => by
    simp only [toComplex, List.length_cons, toComplex_length rest]
    omega

/-- The transform step on a block of exactly `n` samples, when an existing
transform of the block's mode has length `n`. -/
theorem calculate_shape (k : Kernel) (hk : k.Shaped) (w : PsdProcessor) (b : Block) (n : Nat)
    (hsz : b.sized n = true) (hn : w.params_cache.fftSz = n)
    (ht : ∀ m, w.transform b.complex = some m → m = n) :
    (w.calculate k b).1.psdOut_.length = (if b.complex then n else n / 2 + 1) ∧
    (w.calculate k b).1.fftOut_.length = (if b.complex then n else n / 2 + 1) ∧
    (w.calculate k b).1.transform b.complex = some n ∧
    (w.calculate k b).1.transform (!b.complex) = none ∧
    (w.calculate k b).1.vecMean_ =
      (if (w.transform b.complex).isNone then w.vecMean_.clear else w.vecMean_) := by
  unfold PsdProcessor.calculate PsdProcessor.transform Block.sized at *
  cases hcx : b.complex
  · simp only [hcx, Bool.false_eq_true, if_false] at hsz ht ⊢
    have hlen : (copyVecReal b).length = n := by simpa [copyVecReal] using hsz
    cases hr : w.realPsd_ with
    | none =>
      simp only [hr, Option.isNone_none, Option.getD_none, if_true, hn, Bool.not_false]
      refine ⟨(hk.1 n _ hlen).1, (hk.1 n _ hlen).2, ?_⟩
      simp
    | some m =>
      have hm := ht m hr
      subst hm
      simp only [hr, Option.isNone_some, Option.getD_some, Bool.false_eq_true, if_false,
        Bool.not_false, if_true]
      refine ⟨(hk.1 m _ hlen).1, (hk.1 m _ hlen).2, ?_⟩
      simp
  · simp only [hcx, if_true] at hsz ht ⊢
    have hlen : (copyVecComplex b).length = n := by
      have : b.data.length = 2 * n := by simpa using hsz
      rw [copyVecComplex, toComplex_length, this]
      omega
    cases hr : w.complexPsd_ with
    | none =>
      simp only [hr, Option.isNone_none, Option.getD_none, if_true, hn, Bool.not_true,
        Bool.false_eq_true, if_false]
      refine ⟨(hk.2 n _ hlen).1, (hk.2 n _ hlen).2, ?_⟩
      simp
    | some m =>
      have hm := ht m hr
      subst hm
      simp only [hr, Option.isNone_some, Option.getD_some, Bool.false_eq_true, if_false,
        Bool.not_true, if_true]
      refine ⟨(hk.2 m _ hlen).1, (hk.2 m _ hlen).2, ?_⟩
      simp

theorem configure_no_write (w : PsdProcessor) :
    w.configure.2.filter Call.isPsdWrite = [] ∧ w.configure.2.filter Call.isFftWrite = [] := by
  unfold PsdProcessor.configure PsdProcessor.updateAvgStructures
  split <;> simp [Call.isPsdWrite, Call.isFftWrite]

/-- An iteration that processes a block: its state is that of `processBlock`
after `configure` (up to the `eos` mark), its calls are those of the two parts. -/
theorem serviceFunction_processed (k : Kernel) (w : PsdProcessor) (inp : Input) (b : Block)
    (hr : inp.ready = true) (hb : inp.block = some b) :
    (w.serviceFunction k inp).2.1 = w.configure.2 ++ (w.configure.1.processBlock k b).2 ∧
    (w.serviceFunction k inp).1.params = (w.configure.1.processBlock k b).1.params ∧
    (w.serviceFunction k inp).1.params_cache = (w.configure.1.processBlock k b).1.params_cache ∧
    (w.serviceFunction k inp).1.vecMean_ = (w.configure.1.processBlock k b).1.vecMean_ ∧
    (w.serviceFunction k inp).1.realPsd_ = (w.configure.1.processBlock k b).1.realPsd_ ∧
    (w.serviceFunction k inp).1.complexPsd_ = (w.configure.1.processBlock k b).1.complexPsd_ ∧
    (w.serviceFunction k inp).1.psdOutVec = (w.configure.1.processBlock k b).1.psdOutVec ∧
    (w.serviceFunction k inp).1.fftOutVec = (w.configure.1.processBlock k b).1.fftOutVec := by
  unfold PsdProcessor.serviceFunction
  simp only [hr, hb, Bool.not_true, Bool.false_eq_true, if_false]
  cases inp.eos <;> simp

theorem accumulate_ne_nil (v : VectorMean) (x : List ℚ) (hx : x ≠ [])
    (hv : v.count = 0 ∨ v.sum ≠ []) : v.accumulate x ≠ [] := by
  unfold VectorMean.accumulate
  split
  · exact hx
  · rcases hv with h | h
    · contradiction
    · cases hs : v.sum with
      | nil => exact absurd hs h
      | cons a s =>
        cases x with
        | nil => exact absurd rfl hx
        | cons y ys => simp

/-- The PSD path with `doPSD` on: without averaging the per-block PSD goes out;
with averaging the averager runs once and the outbound vector is non-empty
exactly when it emits. -/
theorem psdPath_on (k : Kernel) (w : PsdProcessor) (hd : w.params_cache.doPSD = true)
    (hx : w.psdOut_ ≠ []) :
    (¬ 1 < w.params_cache.numAverage →
      (w.psdPath k).1.psdOutVec ≠ [] ∧ (w.psdPath k).1.vecMean_ = w.vecMean_) ∧
    (1 < w.params_cache.numAverage → (w.vecMean_.count = 0 ∨ w.vecMean_.sum ≠ []) →
      w.vecMean_.count + 1 = w.vecMean_.avgNum →
      (w.psdPath k).1.psdOutVec ≠ [] ∧ (w.psdPath k).1.vecMean_.count = 0 ∧
      (w.psdPath k).1.vecMean_.avgNum = w.vecMean_.avgNum) ∧
    (1 < w.params_cache.numAverage → (w.vecMean_.count = 0 ∨ w.vecMean_.sum ≠ []) →
      w.vecMean_.count + 1 ≠ w.vecMean_.avgNum →
      (w.psdPath k).1.psdOutVec = [] ∧
      (w.psdPath k).1.vecMean_.count = w.vecMean_.count + 1 ∧
      (w.psdPath k).1.vecMean_.sum ≠ [] ∧
      (w.psdPath k).1.vecMean_.avgNum = w.vecMean_.avgNum) := by
  have hacc := accumulate_ne_nil w.vecMean_ w.psdOut_ hx
  have hl := fun v => logPsd_frame k v
  unfold PsdProcessor.psdPath
  simp only [hd, if_true]
  refine ⟨?_, ?_, ?_⟩
  · intro hK
    have ha : w.averagePsd.1 = { w with psdOutVec := copyVec w.psdOut_ } := by
      unfold PsdProcessor.averagePsd
      simp [hK]
    constructor
    · intro h
      have := (hl w.averagePsd.1).2.2.2.2.2.2.2.2
      rw [h, ha] at this
      simp [copyVec] at this
      exact hx (List.length_eq_zero.mp this.symm)
    · rw [(hl _).2.2.2.2.1, ha]
  · intro hK hv hc
    have hacc := hacc hv
    have ha : w.averagePsd.1 =
        { w with vecMean_ := { w.vecMean_ with count := 0, sum := [] }
                 psdAverage_ := (w.vecMean_.accumulate w.psdOut_).map
                    (fun x => x / (w.vecMean_.avgNum : ℚ))
                 psdOutVec := copyVec ((w.vecMean_.accumulate w.psdOut_).map
                    (fun x => x / (w.vecMean_.avgNum : ℚ))) } := by
      unfold PsdProcessor.averagePsd VectorMean.run
      simp [hK, hc]
    refine ⟨?_, ?_, ?_⟩
    · intro h
      have := (hl w.averagePsd.1).2.2.2.2.2.2.2.2
      rw [h, ha] at this
      simp [copyVec] at this
      exact hacc (List.length_eq_zero.mp this.symm)
    · rw [(hl _).2.2.2.2.1, ha]
    · rw [(hl _).2.2.2.2.1, ha]
  · intro hK hv hc
    have hacc := hacc hv
    have ha : w.averagePsd.1 =
        { w with vecMean_ := { w.vecMean_ with count := w.vecMean_.count + 1,
                                               sum := w.vecMean_.accumulate w.psdOut_ }
                 psdOutVec := [] } := by
      unfold PsdProcessor.averagePsd VectorMean.run
      simp [hK, hc]
    refine ⟨?_, ?_, ?_, ?_⟩
    · have := (hl w.averagePsd.1).2.2.2.2.2.2.2.2
      rw [ha] at this ⊢
      simpa using this
    · rw [(hl _).2.2.2.2.1, ha]
    · rw [(hl _).2.2.2.2.1, ha]; exact hacc
    · rw [(hl _).2.2.2.2.1, ha]

theorem succ_mod_cases (K j : Nat) (hK : 1 < K) :
    (j % K + 1 = K → K ∣ j + 1 ∧ (j + 1) % K = 0) ∧
    (j % K + 1 ≠ K → ¬ K ∣ j + 1 ∧ (j + 1) % K = j % K + 1) := by
  have hlt : j % K < K := Nat.mod_lt _ (by omega)
  have hmod : (j + 1) % K = (j % K + 1) % K := by
    rw [Nat.add_mod, Nat.mod_eq_of_lt hK]
  constructor
  · intro h
    have h0 : (j + 1) % K = 0 := by rw [hmod, h, Nat.mod_self]
    exact ⟨Nat.dvd_of_mod_eq_zero h0, h0⟩
  · intro h
    have h1 : (j + 1) % K = j % K + 1 := by
      rw [hmod, Nat.mod_eq_of_lt (by omega)]
    refine ⟨fun hd => ?_, h1⟩
    have := Nat.mod_eq_zero_of_dvd hd
    omega

theorem steady_spec (cx : Bool) (n : Nat) (inp : Input) (h : inp.steady cx n = true) :
    ∃ b, inp.ready = true ∧ inp.block = some b ∧ b.complex = cx ∧
      b.inputQueueFlushed = false ∧ b.sized n = true := by
  unfold Input.steady at h
  cases hb : inp.block with
  | none => simp [hb] at h
  | some b =>
    simp only [hb, Bool.and_eq_true, beq_iff_eq, Bool.not_eq_true'] at h
    exact ⟨b, h.1, rfl, h.2.1.1, h.2.1.2, h.2.2⟩

theorem isNone_congr {α : Type} {a b : Option α} (h : a.isSome = b.isSome) :
    a.isNone = b.isNone := by
  cases a <;> cases b <;> simp at h ⊢

theorem isNone_of_isSome {α : Type} {a : Option α} (h : a.isSome = true) :
    a.isNone = false := by
  cases a <;> simp at h ⊢

/-- One processed block of a run: the invariant moves from `j` to `j + 1`
blocks and the iteration writes a PSD vector exactly when `K` divides `j + 1`. -/
theorem serviceFunction_inRun (k : Kernel) (hk : k.Shaped) (w : PsdProcessor) (K N : Nat)
    (cx : Bool) (j : Nat) (inp : Input) (hK : 1 ≤ K) (hN : 1 ≤ N)
    (hw : w.InRun K N cx j) (hs : inp.steady cx N = true) :
    (w.serviceFunction k inp).1.InRun K N cx (j + 1) ∧
    ((w.serviceFunction k inp).2.1.filter Call.isPsdWrite).length
      = if K ∣ j + 1 then 1 else 0 := by
  obtain ⟨b, hr, hb, hcx, hfl, hsz⟩ := steady_spec cx N inp hs
  obtain ⟨hnum, hpsd, hfft, hcoh, havg, hcnt⟩ := hw
  have hsf := serviceFunction_processed k w inp b hr hb
  have hcc := configure_cache w
  have hcv := configure_vecMean w
  have hct := configure_transform w
  have hpb := processBlock_state k w.configure.1 b
  have hps := processBlock_sri k w.configure.1 b
  have hpw := (processBlock_writes k w.configure.1 b).1
  simp only [hfl, Bool.false_eq_true, if_false] at hpb
  -- the configured worker
  have hu_num : w.configure.1.params_cache.numAverage = K := by rw [hcc.1]; exact hnum
  have hu_psd : w.configure.1.params_cache.doPSD = true := by rw [hcc.1]; exact hpsd
  have hu_fft : w.configure.1.params_cache.fftSz = N := by rw [hcc.1]; exact hfft
  have hu_vec : w.configure.1.vecMean_ = w.nextVecMean := hcv
  have hu_tr : (w.configure.1.transform cx).isSome = (w.transform cx).isSome := by
    unfold PsdProcessor.transform
    cases cx
    · simpa using hct.1
    · simpa using hct.2.1
  have hu_len : ∀ m, w.configure.1.transform b.complex = some m → m = N := by
    intro m hm
    rw [← hfft]
    apply hct.2.2 hcoh m
    unfold PsdProcessor.transform at hm
    cases hbc : b.complex <;> simp [hbc] at hm
    · exact Or.inl hm
    · exact Or.inr hm
  -- the transform step
  have hsh := calculate_shape k hk w.configure.1 b N hsz hu_fft hu_len
  have hcf := calculate_frame k w.configure.1 b
  rw [hcx] at hsh
  have hc_out : (w.configure.1.calculate k b).1.psdOut_ ≠ [] := by
    intro h
    have := hsh.1
    rw [h] at this
    cases cx <;> simp at this
    omega
  have hc_psd : (w.configure.1.calculate k b).1.params_cache.doPSD = true := by
    rw [hcf.2.1]; exact hu_psd
  have hc_num : (w.configure.1.calculate k b).1.params_cache.numAverage = K := by
    rw [hcf.2.1]; exact hu_num
  have hc_avg : (w.configure.1.calculate k b).1.vecMean_.avgNum = K := by
    rw [hsh.2.2.2.2, hu_vec]
    split <;> simpa [VectorMean.clear] using havg
  have hpp := psdPath_on k (w.configure.1.calculate k b).1 hc_psd hc_out
  rw [hc_num] at hpp
  -- the new state
  have hn_params : (w.serviceFunction k inp).1.params =
      { w.params with fftSzChanged := false, numAverageChanged := false,
                      updateSRI := false } := by
    rw [hsf.2.1, hps.1, hcc.2]
  have hn_next : (w.serviceFunction k inp).1.nextVecMean
      = ((w.configure.1.calculate k b).1.psdPath k).1.vecMean_ := by
    unfold PsdProcessor.nextVecMean
    rw [hn_params, hsf.2.2.2.1, hpb.2.1]
    simp
  have hn_tr : (w.serviceFunction k inp).1.transform cx = some N ∧
      (w.serviceFunction k inp).1.transform (!cx) = none := by
    have h1 := hsh.2.2.1
    have h2 := hsh.2.2.2.1
    unfold PsdProcessor.transform at h1 h2 ⊢
    rw [hsf.2.2.2.2.1, hsf.2.2.2.2.2.1, hpb.2.2.1, hpb.2.2.2.1]
    exact ⟨h1, h2⟩
  have hn_coh : (w.serviceFunction k inp).1.Coherent := by
    unfold PsdProcessor.Coherent
    have h1 := hn_tr.1
    have h2 := hn_tr.2
    unfold PsdProcessor.transform at h1 h2
    rw [hn_params]
    cases cx
    · simp only [Bool.false_eq_true, if_false, Bool.not_false, if_true] at h1 h2
      rw [h1, h2]
      simp [hfft]
    · simp only [Bool.false_eq_true, if_false, Bool.not_true, if_true] at h1 h2
      rw [h1, h2]
      simp [hfft]
  have hn_base : (w.serviceFunction k inp).1.params.numAverage = K ∧
      (w.serviceFunction k inp).1.params.doPSD = true ∧
      (w.serviceFunction k inp).1.params.fftSz = N := by
    rw [hn_params]; exact ⟨hnum, hpsd, hfft⟩
  -- the writes
  have hwr : (w.serviceFunction k inp).2.1.filter Call.isPsdWrite =
      if !((w.configure.1.calculate k b).1.psdPath k).1.psdOutVec.isEmpty then
        [Call.outPSD_write ((w.configure.1.calculate k b).1.psdPath k).1.psdOutVec b.time]
      else [] := by
    rw [hsf.1, List.filter_append, (configure_no_write w).1, List.nil_append, hpw, hu_psd,
      hpb.1]
    simp
  by_cases hK1 : 1 < K
  · obtain ⟨hcj, htr⟩ := hcnt hK1
    have hc_cnt : (w.configure.1.calculate k b).1.vecMean_.count = j % K ∧
        ((w.configure.1.calculate k b).1.vecMean_.count = 0 ∨
          (w.configure.1.calculate k b).1.vecMean_.sum ≠ []) := by
      rw [hsh.2.2.2.2, hu_vec, isNone_congr hu_tr]
      rcases htr with h0 | ⟨hsome, hsum⟩
      · split
        · exact ⟨by rw [← hcj, h0]; rfl, Or.inl rfl⟩
        · exact ⟨hcj, Or.inl h0⟩
      · rw [isNone_of_isSome hsome]
        simp only [Bool.false_eq_true, if_false]
        exact ⟨hcj, Or.inr hsum⟩
    have harith := succ_mod_cases K j hK1
    by_cases hemit : j % K + 1 = K
    · have h := hpp.2.1 hK1 hc_cnt.2 (by rw [hc_cnt.1, hc_avg]; exact hemit)
      have hd := (harith.1 hemit)
      refine ⟨⟨hn_base.1, hn_base.2.1, hn_base.2.2, hn_coh, ?_, fun _ => ⟨?_, Or.inl ?_⟩⟩, ?_⟩
      · rw [hn_next, h.2.2]; exact hc_avg
      · rw [hn_next, h.2.1, hd.2]
      · rw [hn_next, h.2.1]
      · rw [hwr, if_pos hd.1]
        have : ((w.configure.1.calculate k b).1.psdPath k).1.psdOutVec.isEmpty = false := by
          cases hv : ((w.configure.1.calculate k b).1.psdPath k).1.psdOutVec with
          | nil => exact absurd hv h.1
          | cons a l => rfl
        simp [this]
    · have h := hpp.2.2 hK1 hc_cnt.2 (by rw [hc_cnt.1, hc_avg]; exact hemit)
      have hd := (harith.2 hemit)
      refine ⟨⟨hn_base.1, hn_base.2.1, hn_base.2.2, hn_coh, ?_, fun _ => ⟨?_, Or.inr ⟨?_, ?_⟩⟩⟩, ?_⟩
      · rw [hn_next, h.2.2.2]; exact hc_avg
      · rw [hn_next, h.2.1, hd.2, hc_cnt.1]
      · rw [hn_tr.1]; rfl
      · rw [hn_next]; exact h.2.2.1
      · rw [hwr, if_neg hd.1, h.1]
        rfl
  · have hKeq : K = 1 := by omega
    have h := hpp.1 hK1
    refine ⟨⟨hn_base.1, hn_base.2.1, hn_base.2.2, hn_coh, ?_, fun hlt => absurd hlt hK1⟩, ?_⟩
    · rw [hn_next, h.2]; exact hc_avg
    · rw [hwr, hKeq, if_pos (one_dvd _)]
      have : ((w.configure.1.calculate k b).1.psdPath k).1.psdOutVec.isEmpty = false := by
        cases hv : ((w.configure.1.calculate k b).1.psdPath k).1.psdOutVec with
        | nil => exact absurd hv h.1
        | cons a l => rfl
      simp [this]

theorem serviceLoop_inRun (k : Kernel) (hk : k.Shaped) (K N : Nat) (cx : Bool)
    (hK : 1 ≤ K) (hN : 1 ≤ N) :
    ∀ (inps : List Input) (w : PsdProcessor) (j : Nat), w.InRun K N cx j →
      inps.all (Input.steady cx N) = true → ∀ (i : Nat) (hi : i < inps.length),
      (((w.serviceLoop k (inps.take i)).1.serviceFunction k (inps.get ⟨i, hi⟩)).2.1.filter
        Call.isPsdWrite).length = if K ∣ j + i + 1 then 1 else 0 := by
  intro inps
  induction inps with
  | nil => intro w j _ _ i hi; exact absurd hi (Nat.not_lt_zero _)
  | cons inp rest ih =>
    intro w j hw hall i hi
    rw [List.all_cons, Bool.and_eq_true] at hall
    have hstep := serviceFunction_inRun k hk w K N cx j inp hK hN hw hall.1
    cases i with
    | zero => simpa [PsdProcessor.serviceLoop] using hstep.2
    | succ i =>
      have hi2 : i < rest.length := by simpa using hi
      have := ih (w.serviceFunction k inp).1 (j + 1) hstep.1 hall.2 i hi2
      simp only [List.take_succ_cons, PsdProcessor.serviceLoop, List.get_cons_succ]
      rw [this]
      congr 2
      omega

theorem inRun_start (w : PsdProcessor) (K N : Nat) (cx : Bool)
    (hnum : w.params.numAverage = K) (hpsd : w.params.doPSD = true)
    (hfft : w.params.fftSz = N) (hcoh : w.Coherent)
    (hstart : w.params.numAverageChanged = true ∨
      (w.vecMean_.avgNum = K ∧ w.vecMean_.count = 0)) :
    w.InRun K N cx 0 := by
  refine ⟨hnum, hpsd, hfft, hcoh, ?_, fun _ => ⟨?_, Or.inl ?_⟩⟩
  all_goals
    unfold PsdProcessor.nextVecMean
    cases hc : w.params.numAverageChanged
    · rcases hstart with h | h
      · rw [hc] at h; cases h
      · simp [h.1, h.2]
    · simp [VectorMean.setAvgNum, hnum]

theorem dcKernel_shaped : dcKernel.Shaped := by
  constructor
  · intro n x _
    simp [dcKernel]
  · intro n x _
    simp [dcKernel, resize]
    omega

theorem new_coherent (fftSize : Nat) (overlap : Int) (numAvg : Nat) (logCoeff : ℚ)
    (doFFT doPSD rfFreqUnits : Bool) (uninit : Params) :
    (PsdProcessor.new fftSize overlap numAvg logCoeff doFFT doPSD rfFreqUnits uninit).Coherent := by
  refine ⟨Or.inl rfl, ?_⟩
  intro n h
  simp [PsdProcessor.new] at h

/-! ### Coherence is an invariant of the worker -/

theorem calculate_transform (k : Kernel) (w : PsdProcessor) (b : Block) (n : Nat)
    (hn : w.params_cache.fftSz = n) (ht : ∀ m, w.transform b.complex = some m → m = n) :
    (w.calculate k b).1.transform b.complex = some n ∧
    (w.calculate k b).1.transform (!b.complex) = none := by
  unfold PsdProcessor.calculate PsdProcessor.transform at *
  cases hcx : b.complex
  · simp only [hcx, Bool.false_eq_true, if_false] at ht ⊢
    cases hr : w.realPsd_ with
    | none => simp [hn]
    | some m => have hm := ht m hr; subst hm; simp
  · simp only [hcx, if_true] at ht ⊢
    cases hr : w.complexPsd_ with
    | none => simp [hn]
    | some m => have hm := ht m hr; subst hm; simp

theorem serviceFunction_early_state (k : Kernel) (w : PsdProcessor) (inp : Input)
    (h : inp.early = true) :
    (w.serviceFunction k inp).1.params = w.configure.1.params ∧
    (w.serviceFunction k inp).1.realPsd_ = w.configure.1.realPsd_ ∧
    (w.serviceFunction k inp).1.complexPsd_ = w.configure.1.complexPsd_ := by
  unfold PsdProcessor.serviceFunction
  cases hr : inp.ready
  · simp
  · cases hb : inp.block with
    | none => cases inp.eos <;> simp
    | some b => simp [Input.early, hr, hb] at h

theorem serviceFunction_coherent (k : Kernel) (w : PsdProcessor) (inp : Input)
    (hcoh : w.Coherent) : (w.serviceFunction k inp).1.Coherent := by
  have hcc := configure_cache w
  have hct := configure_transform w
  have hfz : w.configure.1.params.fftSz = w.params.fftSz := by rw [hcc.2]
  cases he : inp.early
  · -- a block is processed
    have hr : inp.ready = true := by
      cases h : inp.ready
      · simp [Input.early, h] at he
      · rfl
    obtain ⟨b, hb⟩ : ∃ b, inp.block = some b := by
      cases h : inp.block with
      | none => simp [Input.early, h] at he
      | some b => exact ⟨b, rfl⟩
    have hsf := serviceFunction_processed k w inp b hr hb
    have hpb := processBlock_state k w.configure.1 b
    have hps := processBlock_sri k w.configure.1 b
    have hv : ∃ v : PsdProcessor, v = (if b.inputQueueFlushed then w.configure.1.flush
          else w.configure.1) ∧ v.params_cache = w.configure.1.params_cache ∧
        (∀ m, v.transform b.complex = some m → m = w.params.fftSz) := by
      refine ⟨_, rfl, ?_, ?_⟩
      · split <;> rfl
      · intro m hm
        cases hf : b.inputQueueFlushed
        · rw [hf] at hm
          simp only [Bool.false_eq_true, if_false] at hm
          apply hct.2.2 hcoh m
          unfold PsdProcessor.transform at hm
          cases hbc : b.complex <;> simp [hbc] at hm
          · exact Or.inl hm
          · exact Or.inr hm
        · rw [hf] at hm
          simp only [if_true, PsdProcessor.transform, PsdProcessor.flush] at hm
          cases hbc : b.complex <;> simp [hbc] at hm
    obtain ⟨v, hveq, hvc, hvt⟩ := hv
    rw [← hveq] at hpb
    have htr := calculate_transform k v b w.params.fftSz (by rw [hvc, hcc.1]) hvt
    have hp : (w.serviceFunction k inp).1.params.fftSz = w.params.fftSz := by
      rw [hsf.2.1, hps.1, hfz]
    unfold PsdProcessor.Coherent
    rw [hp, hsf.2.2.2.2.1, hsf.2.2.2.2.2.1, hpb.2.2.1, hpb.2.2.2.1]
    unfold PsdProcessor.transform at htr
    cases hbc : b.complex
    · simp only [hbc, Bool.false_eq_true, if_false, Bool.not_false, if_true] at htr
      rw [htr.1, htr.2]
      simp
    · simp only [hbc, Bool.not_true, Bool.false_eq_true, if_false, if_true] at htr
      rw [htr.1, htr.2]
      simp
  · -- the iteration returns before the read
    have hes := serviceFunction_early_state k w inp he
    unfold PsdProcessor.Coherent
    rw [hes.1, hes.2.1, hes.2.2, hfz]
    refine ⟨?_, fun n hn => Or.inr (hct.2.2 hcoh n hn)⟩
    rcases hcoh.1 with h | h
    · left
      have := hct.1
      rw [h] at this
      cases hx : w.configure.1.realPsd_ with
      | none => rfl
      | some m => rw [hx] at this; simp at this
    · right
      have := hct.2.1
      rw [h] at this
      cases hx : w.configure.1.complexPsd_ with
      | none => rfl
      | some m => rw [hx] at this; simp at this

/-- Every reachable state of a worker is coherent: at most one transform
exists, and its length is the live `fftSz` unless a change is pending. -/
theorem reachable_coherent (k : Kernel) (w : PsdProcessor)
    (h : PsdProcessor.Reachable k w) : w.Coherent := by
  induction h with
  | new fftSize overlap numAvg logCoeff doFFT doPSD rfFreqUnits uninit =>
    exact new_coherent fftSize overlap numAvg logCoeff doFFT doPSD rfFreqUnits uninit
  | updateFftSize fftSize _ ih => exact ⟨ih.1, fun _ _ => Or.inl rfl⟩
  | updateOverlap overlap _ ih => exact ih
  | updateNumAvg avg _ ih => exact ih
  | forceSRIUpdate _ ih => exact ih
  | updateActions psd fft _ ih => exact ih
  | updateRfFreqUnits enable _ ih => exact ih
  | updateLogCoefficient logCoeff _ ih => exact ih
  | flush _ ih =>
    refine ⟨Or.inl rfl, ?_⟩
    intro n hn
    simp [PsdProcessor.flush] at hn
  | serviceFunction inp _ ih => exact serviceFunction_coherent k _ inp ih


/-- C3: PSD emission cadence.  In a run of consecutively processed blocks of
one mode, each of exactly `N >= 1` samples, with `doPSD` on, `numAverage = K >= 1`
and no flush, started with the averager reset (or about to be reset by a
pending `setAvgNum`), block number `i + 1` is written to the PSD output exactly
once when `K` divides `i + 1` and not at all otherwise; for `K = 1` that is
exactly one write for every block. -/
theorem psd_emission_cadence (k : Kernel) (hk : k.Shaped) (w : PsdProcessor) (K N : Nat)
    (cx : Bool) (inps : List Input) (i : Nat) (hK : 1 ≤ K) (hN : 1 ≤ N)
    (hnum : w.params.numAverage = K) (hpsd : w.params.doPSD = true)
    (hfft : w.params.fftSz = N) (hcoh : w.Coherent)
    (hstart : w.params.numAverageChanged = true ∨
      (w.vecMean_.avgNum = K ∧ w.vecMean_.count = 0))
    (hinps : inps.all (Input.steady cx N) = true) (hi : i < inps.length) :
    ((((w.serviceLoop k (inps.take i)).1.serviceFunction k (inps.get ⟨i, hi⟩)).2.1.filter
        Call.isPsdWrite).length = if K ∣ i + 1 then 1 else 0) ∧
    (K = 1 →
      (((w.serviceLoop k (inps.take i)).1.serviceFunction k (inps.get ⟨i, hi⟩)).2.1.filter
        Call.isPsdWrite).length = 1) := by
  have h := serviceLoop_inRun k hk K N cx hK hN inps w 0
    (inRun_start w K N cx hnum hpsd hfft hcoh hstart) hinps i hi
  rw [Nat.zero_add] at h
  refine ⟨h, fun h1 => ?_⟩
  rw [h, h1, if_pos (one_dvd _)]

theorem psd_emission_cadence_witness :
    dcKernel.Shaped ∧ 1 ≤ 2 ∧ 1 ≤ 8 ∧
    (freshWorker 2).params.numAverage = 2 ∧ (freshWorker 2).params.doPSD = true ∧
    (freshWorker 2).params.fftSz = 8 ∧ (freshWorker 2).Coherent ∧
    [delivers (onesBlock 8), delivers (onesBlock 8)].all (Input.steady false 8) = true ∧
    ((((freshWorker 2).serviceLoop dcKernel
        ([delivers (onesBlock 8), delivers (onesBlock 8)].take 1)).1.serviceFunction dcKernel
          ([delivers (onesBlock 8), delivers (onesBlock 8)].get ⟨1, by decide⟩)).2.1.filter
        Call.isPsdWrite).length = if 2 ∣ 1 + 1 then 1 else 0 :=
  ⟨dcKernel_shaped, by decide, by decide, rfl, rfl, rfl, new_coherent 8 0 2 0 true true false zeroParams,
   by decide,
   (psd_emission_cadence dcKernel dcKernel_shaped (freshWorker 2) 2 8 false
      [delivers (onesBlock 8), delivers (onesBlock 8)] 1 (by decide) (by decide) rfl rfl rfl
      (new_coherent 8 0 2 0 true true false zeroParams) (Or.inl rfl) (by decide)
      (by decide)).1⟩

/-! ### SRI derivation -/

theorem sizeSub_half (n : Nat) (h2 : 2 ≤ n) (hlt : n < SIZE_MOD) :
    sizeSub (n / 2) 1 = n / 2 - 1 := by
  unfold sizeSub SIZE_MOD at *
  omega

/-- The `xstart` derivation for every FFT size from 2 up: the four cases of
the RF keyword handling, with `ifStart = -(N/2 - 1) * xdelta` (integer division)
for a complex block and 0 for a real one. -/
theorem updateSRI_xstart_cases (p : Params) (b : Block) (h2 : 2 ≤ p.fftSz)
    (hlt : p.fftSz < SIZE_MOD) :
    updateSRI_ifStart p b =
      (if b.complex then -((((p.fftSz / 2 : Nat) : ℚ) - 1) * (updateSRI_fft p b).xdelta)
       else 0) ∧
    updateSRI_ifCentre b = (if b.complex then 0 else 1 / (4 * b.xdelta)) ∧
    (p.rfFreqUnits = false → (updateSRI_fft p b).xstart = updateSRI_ifStart p b) ∧
    (∀ rf : Int, p.rfFreqUnits = true → b.CHAN_RF = some rf →
      (updateSRI_fft p b).xstart
        = updateSRI_ifStart p b + ((rf : ℚ) - updateSRI_ifCentre b)) ∧
    (∀ rf : Int, p.rfFreqUnits = true → b.CHAN_RF = none → b.COL_RF = some rf →
      (updateSRI_fft p b).xstart
        = updateSRI_ifStart p b + ((rf : ℚ) - updateSRI_ifCentre b)) ∧
    (p.rfFreqUnits = true → b.CHAN_RF = none → b.COL_RF = none →
      (updateSRI_fft p b).xstart = updateSRI_ifStart p b) ∧
    (updateSRI_psd p b).xstart = (updateSRI_fft p b).xstart := by
  have hhalf : 1 ≤ p.fftSz / 2 := by omega
  refine ⟨?_, ?_, ?_, ?_, ?_, ?_, ?_⟩
  · unfold updateSRI_ifStart updateSRI_fft
    rw [sizeSub_half p.fftSz h2 hlt]
    split
    · simp only []
      rw [Nat.cast_sub hhalf, Nat.cast_one]
    · rfl
  · unfold updateSRI_ifCentre
    cases b.complex
    · simp only [Bool.not_false, if_true, Bool.false_eq_true, if_false]
      rw [div_div, mul_comm]
    · simp
  · intro h
    simp [updateSRI_fft, updateSRI_xstart, updateSRI_validRF, h]
  · intro rf h hc
    simp [updateSRI_fft, updateSRI_xstart, updateSRI_validRF, updateSRI_deltaF,
      updateSRI_rfCentre, getKeywordByID, h, hc]
  · intro rf h hc hl
    simp [updateSRI_fft, updateSRI_xstart, updateSRI_validRF, updateSRI_deltaF,
      updateSRI_rfCentre, getKeywordByID, h, hc, hl]
  · intro h hc hl
    simp [updateSRI_fft, updateSRI_xstart, updateSRI_validRF, updateSRI_rfCentre,
      getKeywordByID, h, hc, hl]
  · unfold updateSRI_psd
    simp only []
    split <;> rfl

/-- C4: the failing input.  With `fftSz = 1` on a complex block (`xdelta_in = 1`,
`rfFreqUnits` off) the `size_t` expression `fftSz/2-1` wraps to `2^64 - 1`: the
published `xstart` is `-(2^64 - 1)` on both outputs, where the formula
`-(N/2 - 1) * out.xdelta` of the claim gives `+1` (`out.xdelta = 1`). -/
theorem updateSRI_xstart_fftSz_one :
    (updateSRI_fft { zeroParams with fftSz := 1 } oneSampleComplexBlock).xdelta = 1 ∧
    (updateSRI_fft { zeroParams with fftSz := 1 } oneSampleComplexBlock).xstart
      = -18446744073709551615 ∧
    (updateSRI_psd { zeroParams with fftSz := 1 } oneSampleComplexBlock).xstart
      = -18446744073709551615 ∧
    (updateSRI_fft { zeroParams with fftSz := 1 } oneSampleComplexBlock).xstart
      ≠ -((((1 / 2 : Nat) : ℚ) - 1) *
          (updateSRI_fft { zeroParams with fftSz := 1 } oneSampleComplexBlock).xdelta) := by
  norm_num [updateSRI_fft, updateSRI_psd, updateSRI_xstart, updateSRI_validRF,
    updateSRI_ifStart, updateSRI_xdelta, zeroParams, oneSampleComplexBlock, sizeSub, SIZE_MOD]

/-- C5: scenario 3 as the spec states it does not hold.  On the real block
with `N = 8`, `xdelta_in = 1/8000` and `CHAN_RF = 100000` the code does not give
`ifStart = -3000` and `xstart = 95000`. -/
theorem scenario3_as_stated_fails :
    ¬ (updateSRI_ifCentre scenario3Block = 2000 ∧
       updateSRI_deltaF scenario3Block = 98000 ∧
       updateSRI_ifStart scenario3Params scenario3Block = -3000 ∧
       (updateSRI_fft scenario3Params scenario3Block).xstart = 95000) := by
  norm_num [updateSRI_ifStart, scenario3Block, onesBlock]

/-- C5, amended: for a real block with `rfFreqUnits` on, `N = 8`,
`xdelta_in = 1/8000` and `CHAN_RF = 100000`, whatever the other parameters
and block fields, `ifCenter = 2000`, `deltaF = 98000`, `ifStart = 0` and the
`xstart` published on both outputs is `98000` (the bin spacing is `1000`). -/
theorem scenario3_amended (p : Params) (b : Block) (hreal : b.complex = false)
    (hrf : p.rfFreqUnits = true) (hN : p.fftSz = 8) (hx : b.xdelta = 1 / 8000)
    (hkw : b.CHAN_RF = some 100000) :
    updateSRI_ifCentre b = 2000 ∧
    updateSRI_deltaF b = 98000 ∧
    updateSRI_ifStart p b = 0 ∧
    (updateSRI_fft p b).xstart = 98000 ∧
    (updateSRI_psd p b).xstart = 98000 ∧
    (updateSRI_fft p b).xdelta = 1000 := by
  have hc : updateSRI_ifCentre b = 2000 := by
    norm_num [updateSRI_ifCentre, hreal, hx]
  have hd : updateSRI_deltaF b = 98000 := by
    rw [updateSRI_deltaF, hc]
    norm_num [updateSRI_rfCentre, getKeywordByID, hkw]
  have hs : updateSRI_ifStart p b = 0 := by
    simp [updateSRI_ifStart, hreal]
  have hf : (updateSRI_fft p b).xstart = 98000 := by
    simp [updateSRI_fft, updateSRI_xstart, updateSRI_validRF, updateSRI_rfCentre,
      getKeywordByID, hrf, hkw, hs, hd]
  refine ⟨hc, hd, hs, hf, ?_, ?_⟩
  · rw [← hf]
    unfold updateSRI_psd
    simp only []
    split <;> rfl
  · norm_num [updateSRI_fft, updateSRI_xdelta, hN, hx]

theorem scenario3_amended_witness :
    scenario3Block.complex = false ∧ scenario3Params.rfFreqUnits = true ∧
    scenario3Params.fftSz = 8 ∧ scenario3Block.xdelta = 1 / 8000 ∧
    scenario3Block.CHAN_RF = some 100000 ∧
    (updateSRI_fft scenario3Params scenario3Block).xstart = 98000 :=
  ⟨rfl, rfl, rfl, rfl, rfl,
   (scenario3_amended scenario3Params scenario3Block rfl rfl rfl rfl rfl).2.2.2.1⟩

/-- C6: the bin spacing pushed to both outputs is `1/(xdelta_in*N)`, so that
`out.xdelta * N * xdelta_in = 1` for `N >= 1` and `xdelta_in` non-zero; two
pushes with the same `fftSz` and input `xdelta` publish the same spacing,
whatever the mode, overlap, `numAverage`, `rfFreqUnits` and the rest. -/
theorem updateSRI_xdelta_spec (w : PsdProcessor) (b : Block)
    (hN : 1 ≤ w.params_cache.fftSz) (hx : b.xdelta ≠ 0) :
    (w.updateSRI b =
      [Call.outFFT_sri (updateSRI_fft w.params_cache b),
       Call.outPSD_sri (updateSRI_psd w.params_cache b)]) ∧
    (updateSRI_fft w.params_cache b).xdelta = 1 / (b.xdelta * (w.params_cache.fftSz : ℚ)) ∧
    (updateSRI_psd w.params_cache b).xdelta = 1 / (b.xdelta * (w.params_cache.fftSz : ℚ)) ∧
    (updateSRI_fft w.params_cache b).xdelta * (w.params_cache.fftSz : ℚ) * b.xdelta = 1 ∧
    (updateSRI_psd w.params_cache b).xdelta * (w.params_cache.fftSz : ℚ) * b.xdelta = 1 ∧
    (∀ (q : Params) (c : Block), q.fftSz = w.params_cache.fftSz → c.xdelta = b.xdelta →
      (updateSRI_fft q c).xdelta = (updateSRI_fft w.params_cache b).xdelta ∧
      (updateSRI_psd q c).xdelta = (updateSRI_fft w.params_cache b).xdelta) := by
  have hpsd : ∀ (q : Params) (c : Block),
      (updateSRI_psd q c).xdelta = (updateSRI_fft q c).xdelta := by
    intro q c
    unfold updateSRI_psd
    simp only []
    split <;> rfl
  have hfft : ∀ (q : Params) (c : Block),
      (updateSRI_fft q c).xdelta = 1 / (c.xdelta * (q.fftSz : ℚ)) := fun _ _ => rfl
  have hne : (w.params_cache.fftSz : ℚ) ≠ 0 := by
    have : 0 < w.params_cache.fftSz := hN
    exact_mod_cast this.ne'
  have hone : 1 / (b.xdelta * (w.params_cache.fftSz : ℚ)) * (w.params_cache.fftSz : ℚ)
      * b.xdelta = 1 := by
    field_simp
    ring
  refine ⟨rfl, hfft _ _, ?_, ?_, ?_, ?_⟩
  · rw [hpsd, hfft]
  · rw [hfft]; exact hone
  · rw [hpsd, hfft]; exact hone
  · intro q c hq hc
    rw [hpsd, hfft, hfft, hq, hc]
    exact ⟨rfl, rfl⟩

theorem updateSRI_xdelta_spec_witness :
    1 ≤ ((freshWorker 1).serviceFunction dcKernel notReady).1.params_cache.fftSz ∧
    (onesBlock 8).xdelta ≠ 0 ∧
    (updateSRI_fft ((freshWorker 1).serviceFunction dcKernel notReady).1.params_cache
        (onesBlock 8)).xdelta
      * ((((freshWorker 1).serviceFunction dcKernel notReady).1.params_cache.fftSz : Nat) : ℚ)
      * (onesBlock 8).xdelta = 1 :=
  ⟨by decide, by norm_num [onesBlock],
   (updateSRI_xdelta_spec ((freshWorker 1).serviceFunction dcKernel notReady).1 (onesBlock 8)
      (by decide) (by norm_num [onesBlock])).2.2.2.1⟩

/-- C7: the two SRIs of one `updateSRI` call.  The FFT SRI has `mode = 1` and
`ydelta = xdelta_in * strideSize`, the PSD SRI has `mode = 0`; both have
`xunits` frequency and `yunits` time and agree in `xstart`, `xdelta` and
`subsize`; the PSD `ydelta` is the FFT `ydelta` times `K` when `K > 2` and the
FFT `ydelta` itself when `K <= 2`, in particular at `K = 2`. -/
theorem updateSRI_pair (w : PsdProcessor) (b : Block) :
    (w.updateSRI b =
      [Call.outFFT_sri (updateSRI_fft w.params_cache b),
       Call.outPSD_sri (updateSRI_psd w.params_cache b)]) ∧
    (updateSRI_fft w.params_cache b).mode = 1 ∧
    (updateSRI_fft w.params_cache b).ydelta = b.xdelta * (w.params_cache.strideSize : ℚ) ∧
    (updateSRI_psd w.params_cache b).mode = 0 ∧
    ((updateSRI_fft w.params_cache b).xunits = Units.UNITS_FREQUENCY ∧
      (updateSRI_psd w.params_cache b).xunits = Units.UNITS_FREQUENCY ∧
      (updateSRI_fft w.params_cache b).yunits = Units.UNITS_TIME ∧
      (updateSRI_psd w.params_cache b).yunits = Units.UNITS_TIME) ∧
    ((updateSRI_psd w.params_cache b).xstart = (updateSRI_fft w.params_cache b).xstart ∧
      (updateSRI_psd w.params_cache b).xdelta = (updateSRI_fft w.params_cache b).xdelta ∧
      (updateSRI_psd w.params_cache b).subsize = (updateSRI_fft w.params_cache b).subsize) ∧
    (w.params_cache.numAverage > 2 →
      (updateSRI_psd w.params_cache b).ydelta
        = (updateSRI_fft w.params_cache b).ydelta * (w.params_cache.numAverage : ℚ)) ∧
    (w.params_cache.numAverage ≤ 2 →
      (updateSRI_psd w.params_cache b).ydelta = (updateSRI_fft w.params_cache b).ydelta) ∧
    (w.params_cache.numAverage = 2 →
      (updateSRI_psd w.params_cache b).ydelta = (updateSRI_fft w.params_cache b).ydelta) := by
  have hle : w.params_cache.numAverage ≤ 2 →
      (updateSRI_psd w.params_cache b).ydelta = (updateSRI_fft w.params_cache b).ydelta := by
    intro h
    unfold updateSRI_psd
    simp only []
    rw [if_neg (by omega)]
  refine ⟨rfl, rfl, rfl, ?_, ⟨rfl, ?_, rfl, ?_⟩, ⟨?_, ?_, ?_⟩, ?_, hle, fun h => hle (by omega)⟩
  all_goals
    unfold updateSRI_psd
    simp only []
    try (intro h; rw [if_pos h])
    try (split <;> rfl)

/-! ### Output vector lengths -/

theorem copyVecCx_length : ∀ l : List (ℚ × ℚ), (copyVecCx l).length = 2 * l.length
  | [] => rfl
  | (_, _) :: rest => by
    simp only [copyVecCx, List.length_cons, copyVecCx_length rest]
    omega

theorem copyVecCx_get : ∀ (l : List (ℚ × ℚ)) (i : Nat),
    (copyVecCx l)[2 * i]? = (l[i]?).map Prod.fst ∧
    (copyVecCx l)[2 * i + 1]? = (l[i]?).map Prod.snd
  | [], i => by simp [copyVecCx]
  | (re, im) :: rest, 0 => by simp [copyVecCx]
  | (re, im) :: rest, i + 1 => by
    have h := copyVecCx_get rest i
    have e1 : 2 * (i + 1) = (2 * i + 1) + 1 := by omega
    rw [e1]
    simpa [copyVecCx] using h

/-- The transform buffers at the end of `processBlock` are those left by the
transform step. -/
theorem processBlock_buffers (k : Kernel) (w : PsdProcessor) (b : Block) :
    (w.processBlock k b).1.psdOut_ =
      ((if b.inputQueueFlushed then w.flush else w).calculate k b).1.psdOut_ ∧
    (w.processBlock k b).1.fftOut_ =
      ((if b.inputQueueFlushed then w.flush else w).calculate k b).1.fftOut_ := by
  have hs : ∀ v : PsdProcessor, (v.sriPath b).1.psdOut_ = v.psdOut_ ∧
      (v.sriPath b).1.fftOut_ = v.fftOut_ := by
    intro v
    unfold PsdProcessor.sriPath
    cases (v.params_cache.updateSRI || b.sriChanged) <;> simp
  unfold PsdProcessor.processBlock
  simp only []
  constructor
  · rw [(hs _).1, (fftPath_frame _).2.2.2.2.2.1, (psdPath_frame k _).2.2.2.2.1]
  · rw [(hs _).2, (fftPath_frame _).2.2.2.2.2.2.1, (psdPath_frame k _).2.2.2.2.2.1]

theorem serviceFunction_buffers (k : Kernel) (w : PsdProcessor) (inp : Input) (b : Block)
    (hr : inp.ready = true) (hb : inp.block = some b) :
    (w.serviceFunction k inp).1.psdOut_ = (w.configure.1.processBlock k b).1.psdOut_ ∧
    (w.serviceFunction k inp).1.fftOut_ = (w.configure.1.processBlock k b).1.fftOut_ := by
  unfold PsdProcessor.serviceFunction
  simp only [hr, hb, Bool.not_true, Bool.false_eq_true, if_false]
  cases inp.eos <;> simp

theorem psdPath_unaveraged (k : Kernel) (w : PsdProcessor)
    (hd : w.params_cache.doPSD = true) (hK : w.params_cache.numAverage ≤ 1) :
    (w.psdPath k).1.psdOutVec.length = w.psdOut_.length := by
  have ha : w.averagePsd.1 = { w with psdOutVec := copyVec w.psdOut_ } := by
    unfold PsdProcessor.averagePsd
    rw [if_neg (by omega)]
  unfold PsdProcessor.psdPath
  simp only [hd, if_true]
  rw [(logPsd_frame k _).2.2.2.2.2.2.2.2, ha]
  rfl

theorem updateSRI_subsize (p : Params) (b : Block) :
    (updateSRI_fft p b).subsize = (if b.complex then p.fftSz else p.fftSz / 2 + 1) ∧
    (updateSRI_psd p b).subsize = (if b.complex then p.fftSz else p.fftSz / 2 + 1) := by
  have h : (updateSRI_fft p b).subsize = (if b.complex then p.fftSz else p.fftSz / 2 + 1) := by
    unfold updateSRI_fft
    cases b.complex <;> rfl
  refine ⟨h, ?_⟩
  rw [← h]
  unfold updateSRI_psd
  simp only []
  split <;> rfl

/-- C8: output vector lengths agree with the published subsize.  For a
processed block of exactly `N >= 1` samples, with the transform delivering the
shapes of the spec, every SRI pushed in the iteration has `subsize = N/2+1`
(real) or `N` (complex); with `doFFT` on the iteration writes one FFT vector, the
interleaving by `copyVec` of the `subsize` bins of `fftOut_` (float `2i` the real
part and float `2i+1` the imaginary part of bin `i`), of length `2*subsize`;
with `doPSD` on and no averaging it writes one PSD vector of length `subsize`. -/
theorem output_lengths (k : Kernel) (hk : k.Shaped) (w : PsdProcessor) (N : Nat)
    (inp : Input) (b : Block) (hN : 1 ≤ N) (hfft : w.params.fftSz = N) (hcoh : w.Coherent)
    (hr : inp.ready = true) (hb : inp.block = some b) (hsz : b.sized N = true) :
    (∀ s, Call.outFFT_sri s ∈ (w.serviceFunction k inp).2.1 ∨
        Call.outPSD_sri s ∈ (w.serviceFunction k inp).2.1 →
      s.subsize = (if b.complex then N else N / 2 + 1)) ∧
    (w.params.doFFT = true →
      (w.serviceFunction k inp).2.1.filter Call.isFftWrite =
        [Call.outFFT_write (copyVecCx (w.serviceFunction k inp).1.fftOut_) b.time] ∧
      (w.serviceFunction k inp).1.fftOut_.length = (if b.complex then N else N / 2 + 1) ∧
      (copyVecCx (w.serviceFunction k inp).1.fftOut_).length
        = 2 * (if b.complex then N else N / 2 + 1) ∧
      ∀ i, (copyVecCx (w.serviceFunction k inp).1.fftOut_)[2 * i]?
            = ((w.serviceFunction k inp).1.fftOut_[i]?).map Prod.fst ∧
          (copyVecCx (w.serviceFunction k inp).1.fftOut_)[2 * i + 1]?
            = ((w.serviceFunction k inp).1.fftOut_[i]?).map Prod.snd) ∧
    (w.params.doPSD = true → w.params.numAverage ≤ 1 →
      ∃ v, (w.serviceFunction k inp).2.1.filter Call.isPsdWrite
          = [Call.outPSD_write v b.time] ∧
        v.length = (if b.complex then N else N / 2 + 1)) := by
  have hsf := serviceFunction_processed k w inp b hr hb
  have hsb := serviceFunction_buffers k w inp b hr hb
  have hcc := configure_cache w
  have hct := configure_transform w
  have hpb := processBlock_state k w.configure.1 b
  have hpf := processBlock_buffers k w.configure.1 b
  have hps := processBlock_sri k w.configure.1 b
  have hpw := processBlock_writes k w.configure.1 b
  have hblk := serviceFunction_block k w inp b hr hb
  have hu_fft : w.configure.1.params_cache.fftSz = N := by rw [hcc.1]; exact hfft
  -- the worker handed to the transform step
  have hv : ∃ v : PsdProcessor, v = (if b.inputQueueFlushed then w.configure.1.flush
        else w.configure.1) ∧ v.params_cache = w.configure.1.params_cache ∧
      (∀ m, v.transform b.complex = some m → m = N) := by
    refine ⟨_, rfl, ?_, ?_⟩
    · split <;> rfl
    · intro m hm
      cases hf : b.inputQueueFlushed
      · rw [hf] at hm
        simp only [Bool.false_eq_true, if_false] at hm
        rw [← hfft]
        apply hct.2.2 hcoh m
        unfold PsdProcessor.transform at hm
        cases hbc : b.complex <;> simp [hbc] at hm
        · exact Or.inl hm
        · exact Or.inr hm
      · rw [hf] at hm
        simp only [if_true, PsdProcessor.transform, PsdProcessor.flush] at hm
        cases hbc : b.complex <;> simp [hbc] at hm
  obtain ⟨v, hveq, hvc, hvt⟩ := hv
  rw [← hveq] at hpb hpf
  have hsh := calculate_shape k hk v b N hsz (by rw [hvc]; exact hu_fft) hvt
  have hcf := calculate_frame k v b
  have hr_fft : (w.serviceFunction k inp).1.fftOut_ = (v.calculate k b).1.fftOut_ := by
    rw [hsb.2, hpf.2]
  have hlen : (w.serviceFunction k inp).1.fftOut_.length
      = (if b.complex then N else N / 2 + 1) := by rw [hr_fft]; exact hsh.2.1
  have hpos : 1 ≤ (if b.complex then N else N / 2 + 1) := by split <;> omega
  refine ⟨?_, ?_, ?_⟩
  · intro s hs
    have hmem : Call.outFFT_sri s ∈ (w.serviceFunction k inp).2.1.filter Call.isSri ∨
        Call.outPSD_sri s ∈ (w.serviceFunction k inp).2.1.filter Call.isSri := by
      rcases hs with h | h
      · exact Or.inl (List.mem_filter.mpr ⟨h, rfl⟩)
      · exact Or.inr (List.mem_filter.mpr ⟨h, rfl⟩)
    have hsz2 : (w.serviceFunction k inp).1.params_cache.fftSz = N := by
      rw [hsf.2.2.1, hps.2.1]; exact hu_fft
    have hsub := updateSRI_subsize (w.serviceFunction k inp).1.params_cache b
    rw [hsz2] at hsub
    rw [hblk.2.2] at hmem
    split at hmem
    · rcases hmem with h | h
      · simp at h
        rw [h]; exact hsub.1
      · simp at h
        rw [h]; exact hsub.2
    · simp at hmem
  · intro hdo
    have hu_do : w.configure.1.params_cache.doFFT = true := by rw [hcc.1]; exact hdo
    have hvec : (w.configure.1.processBlock k b).1.fftOutVec
        = copyVecCx (w.serviceFunction k inp).1.fftOut_ := by
      rw [hpb.2.2.2.2, hr_fft]
      unfold PsdProcessor.fftPath
      rw [(psdPath_frame k _).2.1, hcf.2.1, hvc, hu_do]
      simp only [if_true]
      rw [(psdPath_frame k _).2.2.2.2.2.1]
    have hl2 := copyVecCx_length (w.serviceFunction k inp).1.fftOut_
    rw [hlen] at hl2
    refine ⟨?_, hlen, hl2, copyVecCx_get _⟩
    rw [hsf.1, List.filter_append, (configure_no_write w).2, List.nil_append, hpw.2, hu_do,
      hvec]
    have hne : (copyVecCx (w.serviceFunction k inp).1.fftOut_).isEmpty = false := by
      have h0 : 0 < (copyVecCx (w.serviceFunction k inp).1.fftOut_).length := by
        rw [hl2]; exact Nat.mul_pos (by decide) hpos
      cases hc : copyVecCx (w.serviceFunction k inp).1.fftOut_ with
      | nil => rw [hc] at h0; exact absurd h0 (Nat.lt_irrefl 0)
      | cons a l => rfl
    simp [hne]
  · intro hdo hK
    have hu_do : w.configure.1.params_cache.doPSD = true := by rw [hcc.1]; exact hdo
    have hu_K : w.configure.1.params_cache.numAverage ≤ 1 := by rw [hcc.1]; exact hK
    have hl := psdPath_unaveraged k (v.calculate k b).1 (by rw [hcf.2.1, hvc]; exact hu_do)
      (by rw [hcf.2.1, hvc]; exact hu_K)
    rw [hsh.1, ← hpb.1] at hl
    refine ⟨(w.configure.1.processBlock k b).1.psdOutVec, ?_, hl⟩
    rw [hsf.1, List.filter_append, (configure_no_write w).1, List.nil_append, hpw.1, hu_do]
    have hne : (w.configure.1.processBlock k b).1.psdOutVec.isEmpty = false := by
      have h0 : 0 < (w.configure.1.processBlock k b).1.psdOutVec.length := by
        rw [hl]; exact hpos
      cases hc : (w.configure.1.processBlock k b).1.psdOutVec with
      | nil => rw [hc] at h0; exact absurd h0 (Nat.lt_irrefl 0)
      | cons a l => rfl
    simp [hne]

theorem output_lengths_witness :
    dcKernel.Shaped ∧ 1 ≤ 8 ∧ (freshWorker 1).params.fftSz = 8 ∧ (freshWorker 1).Coherent ∧
    (delivers (onesBlock 8)).ready = true ∧
    (delivers (onesBlock 8)).block = some (onesBlock 8) ∧ (onesBlock 8).sized 8 = true ∧
    (copyVecCx ((freshWorker 1).serviceFunction dcKernel (delivers (onesBlock 8))).1.fftOut_).length
      = 2 * (if (onesBlock 8).complex then 8 else 8 / 2 + 1) :=
  ⟨dcKernel_shaped, by decide, rfl, new_coherent 8 0 1 0 true true false zeroParams, rfl, rfl,
   by decide,
   ((output_lengths dcKernel dcKernel_shaped (freshWorker 1) 8 (delivers (onesBlock 8))
      (onesBlock 8) (by decide) rfl (new_coherent 8 0 1 0 true true false zeroParams) rfl rfl
      (by decide)).2.1 rfl).2.2.1⟩

/-! ### Property changes -/

/-- C9: invalid configurations are not rejected.  A supervisor with one worker
of `fftSz = 8`, `numAverage = 1`, `overlap = 0` takes `fftSize = 0`, `numAvg = 0`
and `overlap = 8`: each callback changes the parameter box of the worker. -/
theorem invalid_configuration_not_rejected :
    ¬ (((oneWorkerSupervisor 0 0 1).fftSizeChanged 8 0).stateMap.map (fun e => e.2.params)
        = (oneWorkerSupervisor 0 0 1).stateMap.map (fun e => e.2.params)) ∧
    ¬ (((oneWorkerSupervisor 8 0 0).numAvgChanged 1 0).stateMap.map (fun e => e.2.params)
        = (oneWorkerSupervisor 8 0 0).stateMap.map (fun e => e.2.params)) ∧
    ¬ (((oneWorkerSupervisor 8 8 1).overlapChanged 0 8).stateMap.map (fun e => e.2.params)
        = (oneWorkerSupervisor 8 8 1).stateMap.map (fun e => e.2.params)) := by
  refine ⟨?_, ?_, ?_⟩ <;>
    simp [oneWorkerSupervisor, psd_i.fftSizeChanged, psd_i.numAvgChanged,
      psd_i.overlapChanged, psd_i.forAll, freshWorker, PsdProcessor.new,
      PsdProcessor.updateFftSize, PsdProcessor.updateNumAvg, PsdProcessor.updateOverlap]

/-- C9, amended: the callbacks validate nothing.  Whenever the new value
differs from the old one, whatever the values, every active worker keeps its
stream ID and its parameter box takes the current property value by the
matching setter: `fftSizeChanged` sets `fftSz`, recomputes `strideSize` and
raises `fftSzChanged` and `updateSRI`; `overlapChanged` sets `overlap`,
recomputes `strideSize` and raises `updateSRI`; `numAvgChanged` sets
`numAverage` and raises `numAverageChanged` and `updateSRI`; the other fields
of the box are kept. -/
theorem property_change_fans_out (s : psd_i) (oldN newN oldK newK : Nat) (oldO newO : Int)
    (hN : oldN ≠ newN) (hK : oldK ≠ newK) (hO : oldO ≠ newO) :
    ((s.fftSizeChanged oldN newN).stateMap.map (fun e => (e.1, e.2.params)) =
      s.stateMap.map (fun e => (e.1,
        { e.2.params with
          fftSz := s.fftSize
          strideSize := sizeSub s.fftSize (intToSize e.2.params.overlap)
          fftSzChanged := true
          updateSRI := true }))) ∧
    ((s.overlapChanged oldO newO).stateMap.map (fun e => (e.1, e.2.params)) =
      s.stateMap.map (fun e => (e.1,
        { e.2.params with
          overlap := s.overlap
          strideSize := sizeSub e.2.params.fftSz (intToSize s.overlap)
          updateSRI := true }))) ∧
    ((s.numAvgChanged oldK newK).stateMap.map (fun e => (e.1, e.2.params)) =
      s.stateMap.map (fun e => (e.1,
        { e.2.params with
          numAverage := s.numAvg
          numAverageChanged := true
          updateSRI := true }))) := by
  refine ⟨?_, ?_, ?_⟩
  · simp [psd_i.fftSizeChanged, psd_i.forAll, hN, PsdProcessor.updateFftSize]
  · simp [psd_i.overlapChanged, psd_i.forAll, hO, PsdProcessor.updateOverlap]
  · simp [psd_i.numAvgChanged, psd_i.forAll, hK, PsdProcessor.updateNumAvg]

theorem property_change_fans_out_witness :
    (8 : Nat) ≠ 0 ∧ (1 : Nat) ≠ 0 ∧ (0 : Int) ≠ 8 ∧
    (((oneWorkerSupervisor 0 8 0).fftSizeChanged 8 0).stateMap.map (fun e => (e.1, e.2.params)) =
      (oneWorkerSupervisor 0 8 0).stateMap.map (fun e => (e.1,
        { e.2.params with
          fftSz := (oneWorkerSupervisor 0 8 0).fftSize
          strideSize := sizeSub (oneWorkerSupervisor 0 8 0).fftSize
            (intToSize e.2.params.overlap)
          fftSzChanged := true
          updateSRI := true }))) :=
  ⟨by decide, by decide, by decide,
   (property_change_fans_out (oneWorkerSupervisor 0 8 0) 8 0 1 0 0 8
      (by decide) (by decide) (by decide)).1⟩

theorem configure_setAvgNum (w : PsdProcessor) :
    w.configure.2 =
      if w.params.numAverageChanged then [Call.vecMean_setAvgNum w.params.numAverage]
      else [] := by
  have hf := updateFftStructures_frame w.updateCache
  have hcond : w.updateCache.updateFftStructures.params_cache.numAverageChanged
      = w.params.numAverageChanged := by rw [hf.2.1]; rfl
  have hnum : w.updateCache.updateFftStructures.params_cache.numAverage
      = w.params.numAverage := by rw [hf.2.1]; rfl
  unfold PsdProcessor.configure PsdProcessor.updateAvgStructures
  rw [hcond]
  cases h : w.params.numAverageChanged <;> simp [hnum]

theorem processBlock_no_setAvgNum (k : Kernel) (w : PsdProcessor) (b : Block) :
    (w.processBlock k b).2.filter Call.isSetAvgNum = [] := by
  have h1 : ∀ v : PsdProcessor, (v.calculate k b).2.filter Call.isSetAvgNum = [] := by
    intro v
    unfold PsdProcessor.calculate
    cases b.complex <;> cases v.realPsd_ <;> cases v.complexPsd_ <;> simp [Call.isSetAvgNum]
  have h2 : ∀ v : PsdProcessor, (v.psdPath k).2.filter Call.isSetAvgNum = [] := by
    intro v
    unfold PsdProcessor.psdPath PsdProcessor.averagePsd
    split
    · split
      · split <;> simp [Call.isSetAvgNum]
      · simp
    · simp
  have h3 : ∀ v : PsdProcessor, (v.sriPath b).2.filter Call.isSetAvgNum = [] := by
    intro v
    unfold PsdProcessor.sriPath
    split <;> simp [PsdProcessor.updateSRI, Call.isSetAvgNum]
  have h4 : ∀ v : PsdProcessor, (v.output b).filter Call.isSetAvgNum = [] := by
    intro v
    unfold PsdProcessor.output
    split <;> split <;> simp [Call.isSetAvgNum]
  unfold PsdProcessor.processBlock
  simp only [List.filter_append, h1, h2, h3, h4, List.append_nil]

/-- An iteration of a worker with no pending SRI request and no pending change
of `numAverage`, on an input without SRI change, pushes no SRI and does not call
`setAvgNum`. -/
theorem serviceFunction_quiet (k : Kernel) (w : PsdProcessor) (inp : Input)
    (h1 : w.params.updateSRI = false) (h2 : w.params_cache.updateSRI = false)
    (h3 : w.params.numAverageChanged = false)
    (h4 : ∀ b, inp.block = some b → b.sriChanged = false) :
    (w.serviceFunction k inp).2.1.filter Call.isSri = [] ∧
    (w.serviceFunction k inp).2.1.filter Call.isSetAvgNum = [] := by
  have hcfg : w.configure.2 = [] := by rw [configure_setAvgNum, h3]; rfl
  cases hr : inp.ready with
  | false =>
    refine ⟨(serviceFunction_early k w inp (by simp [Input.early, hr])).2.2, ?_⟩
    unfold PsdProcessor.serviceFunction
    simp [hr, hcfg]
  | true =>
    cases hb : inp.block with
    | none =>
      refine ⟨(serviceFunction_early k w inp (by simp [Input.early, hb])).2.2, ?_⟩
      unfold PsdProcessor.serviceFunction
      cases inp.eos <;> simp [hr, hb, hcfg]
    | some b =>
      constructor
      · rw [(serviceFunction_block k w inp b hr hb).2.2, h1, h2, h4 b hb]
        rfl
      · rw [(serviceFunction_processed k w inp b hr hb).1, hcfg, List.nil_append]
        exact processBlock_no_setAvgNum k _ b

/-- C10: idempotence of property changes.  Each of the five callbacks, called
with a new value equal to the old one, returns the supervisor unchanged: no
setter runs and every worker with its parameter box (flags included) is as
before.  Hence a worker that had no pending SRI request and no pending change
of `numAverage` is still in the map with none, and its next iteration pushes no
SRI (on an input without SRI change) and does not call `setAvgNum`. -/
theorem property_change_idempotent (s : psd_i) (n a : Nat) (o : Int) (r : Bool) (c : ℚ) :
    (s.fftSizeChanged n n = s ∧ s.numAvgChanged a a = s ∧ s.overlapChanged o o = s ∧
      s.rfFreqUnitsChanged r r = s ∧ s.logCoeffChanged c c = s) ∧
    (∀ t : psd_i,
      t = s.fftSizeChanged n n ∨ t = s.numAvgChanged a a ∨ t = s.overlapChanged o o ∨
        t = s.rfFreqUnitsChanged r r ∨ t = s.logCoeffChanged c c →
      t.stateMap.map (fun e => (e.1, e.2.params)) = s.stateMap.map (fun e => (e.1, e.2.params)) ∧
      ∀ e ∈ s.stateMap, e ∈ t.stateMap ∧
        (e.2.params.updateSRI = false → e.2.params_cache.updateSRI = false →
          e.2.params.numAverageChanged = false →
          ∀ (k : Kernel) (inp : Input), (∀ b, inp.block = some b → b.sriChanged = false) →
            (e.2.serviceFunction k inp).2.1.filter Call.isSri = [] ∧
            (e.2.serviceFunction k inp).2.1.filter Call.isSetAvgNum = [])) := by
  have h1 : s.fftSizeChanged n n = s := by simp [psd_i.fftSizeChanged]
  have h2 : s.numAvgChanged a a = s := by simp [psd_i.numAvgChanged]
  have h3 : s.overlapChanged o o = s := by simp [psd_i.overlapChanged]
  have h4 : s.rfFreqUnitsChanged r r = s := by simp [psd_i.rfFreqUnitsChanged]
  have h5 : s.logCoeffChanged c c = s := by simp [psd_i.logCoeffChanged]
  refine ⟨⟨h1, h2, h3, h4, h5⟩, ?_⟩
  intro t ht
  have hts : t = s := by
    rcases ht with h | h | h | h | h
    · rw [h, h1]
    · rw [h, h2]
    · rw [h, h3]
    · rw [h, h4]
    · rw [h, h5]
  subst hts
  refine ⟨rfl, fun e he => ⟨he, ?_⟩⟩
  intro p1 p2 p3 k inp hinp
  exact serviceFunction_quiet k e.2 inp p1 p2 p3 hinp

/-! ### Stride invariant -/

theorem sizeSub_overlap (n : Nat) (o : Int) (h0 : 0 ≤ o) (hlt : o < (n : Int))
    (hn : n < SIZE_MOD) :
    1 ≤ sizeSub n (intToSize o) ∧ ((sizeSub n (intToSize o) : Nat) : Int) = (n : Int) - o := by
  unfold sizeSub intToSize SIZE_MOD at *
  omega

theorem boxReachable_stride (w : PsdProcessor) (h : PsdProcessor.BoxReachable w) :
    w.params.StrideOk := by
  induction h with
  | new fftSize overlap numAvg logCoeff doFFT doPSD rfFreqUnits uninit => rfl
  | updateFftSize fftSize _ _ => rfl
  | updateOverlap overlap _ _ => rfl
  | updateNumAvg avg _ ih => exact ih
  | forceSRIUpdate _ ih => exact ih
  | updateActions psd fft _ ih => exact ih
  | updateRfFreqUnits enable _ ih => exact ih
  | updateLogCoefficient logCoeff _ ih => exact ih
  | updateCache _ ih => exact ih

theorem serviceFunction_params (k : Kernel) (w : PsdProcessor) (inp : Input) :
    (w.serviceFunction k inp).1.params =
      { w.params with fftSzChanged := false, numAverageChanged := false,
                      updateSRI := false } := by
  have hcc := (configure_cache w).2
  cases he : inp.early
  · have hr : inp.ready = true := by
      cases h : inp.ready
      · simp [Input.early, h] at he
      · rfl
    obtain ⟨b, hb⟩ : ∃ b, inp.block = some b := by
      cases h : inp.block with
      | none => simp [Input.early, h] at he
      | some b => exact ⟨b, rfl⟩
    rw [(serviceFunction_processed k w inp b hr hb).2.1,
      (processBlock_sri k w.configure.1 b).1, hcc]
  · rw [(serviceFunction_early_state k w inp he).1, hcc]

theorem reachable_stride (k : Kernel) (w : PsdProcessor)
    (h : PsdProcessor.Reachable k w) : w.params.StrideOk := by
  induction h with
  | new fftSize overlap numAvg logCoeff doFFT doPSD rfFreqUnits uninit => rfl
  | updateFftSize fftSize _ _ => rfl
  | updateOverlap overlap _ _ => rfl
  | updateNumAvg avg _ ih => exact ih
  | forceSRIUpdate _ ih => exact ih
  | updateActions psd fft _ ih => exact ih
  | updateRfFreqUnits enable _ ih => exact ih
  | updateLogCoefficient logCoeff _ ih => exact ih
  | flush _ ih => exact ih
  | serviceFunction inp _ ih =>
    unfold Params.StrideOk at *
    rw [serviceFunction_params]
    exact ih

/-- C11: stride invariant of the parameter box.  In every state reached from
the constructor by the seven writers and worker snapshots (and also by whole
iterations and `flush()`), `params.strideSize` is `params.fftSz - params.overlap`
computed in `size_t`; hence, for a `fftSz` that fits `size_t`, `strideSize` is at
least 1 and equals the exact difference whenever `0 <= overlap < fftSz`.
`updateFftSize(n)` then `updateOverlap(o)` and `updateOverlap(o)` then
`updateFftSize(n)` end with the same `fftSz = n`, `overlap = o` and
`strideSize`. -/
theorem stride_invariant (k : Kernel) (w : PsdProcessor)
    (h : PsdProcessor.BoxReachable w ∨ PsdProcessor.Reachable k w) (n : Nat) (o : Int) :
    w.params.strideSize = sizeSub w.params.fftSz (intToSize w.params.overlap) ∧
    (0 ≤ w.params.overlap → w.params.overlap < (w.params.fftSz : Int) →
      w.params.fftSz < SIZE_MOD →
      1 ≤ w.params.strideSize ∧
      ((w.params.strideSize : Nat) : Int) = (w.params.fftSz : Int) - w.params.overlap) ∧
    (((w.updateFftSize n).updateOverlap o).params.fftSz = n ∧
      ((w.updateOverlap o).updateFftSize n).params.fftSz = n ∧
      ((w.updateFftSize n).updateOverlap o).params.overlap = o ∧
      ((w.updateOverlap o).updateFftSize n).params.overlap = o ∧
      ((w.updateFftSize n).updateOverlap o).params.strideSize = sizeSub n (intToSize o) ∧
      ((w.updateOverlap o).updateFftSize n).params.strideSize = sizeSub n (intToSize o)) := by
  have hs : w.params.StrideOk := by
    rcases h with h | h
    · exact boxReachable_stride w h
    · exact reachable_stride k w h
  refine ⟨hs, ?_, rfl, rfl, rfl, rfl, rfl, rfl⟩
  intro h0 hlt hn
  have := sizeSub_overlap w.params.fftSz w.params.overlap h0 hlt hn
  unfold Params.StrideOk at hs
  rw [hs]
  exact this

theorem stride_invariant_witness :
    (PsdProcessor.BoxReachable (((freshWorker 1).updateFftSize 16).updateOverlap 4).updateCache ∨
      PsdProcessor.Reachable dcKernel
        (((freshWorker 1).updateFftSize 16).updateOverlap 4).updateCache) ∧
    (1 ≤ (((freshWorker 1).updateFftSize 16).updateOverlap 4).updateCache.params.strideSize ∧
      (((((freshWorker 1).updateFftSize 16).updateOverlap 4).updateCache.params.strideSize : Nat)
          : Int)
        = ((((freshWorker 1).updateFftSize 16).updateOverlap 4).updateCache.params.fftSz : Int)
          - (((freshWorker 1).updateFftSize 16).updateOverlap 4).updateCache.params.overlap) :=
  ⟨Or.inl (PsdProcessor.BoxReachable.updateCache (PsdProcessor.BoxReachable.updateOverlap 4
      (PsdProcessor.BoxReachable.updateFftSize 16
        (PsdProcessor.BoxReachable.new 8 0 1 0 true true false zeroParams)))),
   (stride_invariant dcKernel (((freshWorker 1).updateFftSize 16).updateOverlap 4).updateCache
      (Or.inl (PsdProcessor.BoxReachable.updateCache (PsdProcessor.BoxReachable.updateOverlap 4
        (PsdProcessor.BoxReachable.updateFftSize 16
          (PsdProcessor.BoxReachable.new 8 0 1 0 true true false zeroParams))))) 0 0).2.1
      (by decide) (by decide) (by decide)⟩

/-! ### Output gating -/

theorem serviceFunction_early_calls (k : Kernel) (w : PsdProcessor) (inp : Input)
    (h : inp.early = true) : (w.serviceFunction k inp).2.1 = w.configure.2 := by
  unfold PsdProcessor.serviceFunction
  cases hr : inp.ready
  · simp
  · cases hb : inp.block with
    | none => cases inp.eos <;> simp
    | some b => simp [Input.early, hr, hb] at h

/-- The writes of any iteration, in terms of the gates of the live record and
the state the iteration ends in. -/
theorem serviceFunction_writes (k : Kernel) (w : PsdProcessor) (inp : Input) :
    ((w.serviceFunction k inp).2.1.filter Call.isPsdWrite =
      match inp.ready, inp.block with
      | true, some b =>
        if w.params.doPSD && !(w.serviceFunction k inp).1.psdOutVec.isEmpty then
          [Call.outPSD_write (w.serviceFunction k inp).1.psdOutVec b.time] else []
      | _, _ => []) ∧
    ((w.serviceFunction k inp).2.1.filter Call.isFftWrite =
      match inp.ready, inp.block with
      | true, some b =>
        if w.params.doFFT && !(w.serviceFunction k inp).1.fftOutVec.isEmpty then
          [Call.outFFT_write (w.serviceFunction k inp).1.fftOutVec b.time] else []
      | _, _ => []) := by
  have hcw := configure_no_write w
  have hcc := (configure_cache w).1
  cases hr : inp.ready
  · rw [serviceFunction_early_calls k w inp (by simp [Input.early, hr])]
    exact ⟨hcw.1, hcw.2⟩
  · cases hb : inp.block with
    | none =>
      rw [serviceFunction_early_calls k w inp (by simp [Input.early, hb])]
      exact ⟨hcw.1, hcw.2⟩
    | some b =>
      have hsf := serviceFunction_processed k w inp b hr hb
      have hpw := processBlock_writes k w.configure.1 b
      have hd : w.configure.1.params_cache.doPSD = w.params.doPSD := by rw [hcc]
      have hf : w.configure.1.params_cache.doFFT = w.params.doFFT := by rw [hcc]
      simp only []
      rw [hsf.1, List.filter_append, List.filter_append, hcw.1, hcw.2, List.nil_append,
        List.nil_append, hpw.1, hpw.2, hd, hf, hsf.2.2.2.2.2.2.1, hsf.2.2.2.2.2.2.2]
      exact ⟨rfl, rfl⟩

theorem serviceFunction_fftOutVec (k : Kernel) (w : PsdProcessor) (inp : Input) (b : Block)
    (hdo : w.params.doFFT = true) (hr : inp.ready = true) (hb : inp.block = some b) :
    (w.serviceFunction k inp).1.fftOutVec = copyVecCx (w.serviceFunction k inp).1.fftOut_ := by
  have hsf := serviceFunction_processed k w inp b hr hb
  have hsb := serviceFunction_buffers k w inp b hr hb
  have hpb := processBlock_state k w.configure.1 b
  have hpf := processBlock_buffers k w.configure.1 b
  have hu_do : w.configure.1.params_cache.doFFT = true := by
    rw [(configure_cache w).1]; exact hdo
  have hflush : (if b.inputQueueFlushed then w.configure.1.flush else w.configure.1).params_cache
      = w.configure.1.params_cache := by split <;> rfl
  rw [hsf.2.2.2.2.2.2.2, hsb.2, hpb.2.2.2.2, hpf.2]
  unfold PsdProcessor.fftPath
  rw [(psdPath_frame k _).2.1, (calculate_frame k _ b).2.1, hflush, hu_do]
  simp only [if_true]
  rw [(psdPath_frame k _).2.2.2.2.2.1]

theorem filter_isWrite_nil (l : List Call) (h1 : l.filter Call.isPsdWrite = [])
    (h2 : l.filter Call.isFftWrite = []) : l.filter Call.isWrite = [] := by
  rw [List.filter_eq_nil_iff] at h1 h2 ⊢
  intro c hc
  have a1 := h1 c hc
  have a2 := h2 c hc
  simp only [Call.isWrite, Bool.or_eq_true, not_or]
  exact ⟨a1, a2⟩

/-- C12: output gating.  The gates the iteration works with are the cached
copies of the live `doPSD` and `doFFT`.  When the cached `doPSD` is false the
iteration makes no PSD write, when the cached `doFFT` is false it makes no FFT
write, whatever `psdOutVec` and `fftOutVec` hold from earlier iterations; with
both false it makes no write at all.  With `doFFT` true, an iteration that
processes a block and leaves a non-empty FFT buffer makes exactly one FFT
write, of the interleaved buffer at the block's first timestamp. -/
theorem output_gating (k : Kernel) (w : PsdProcessor) (inp : Input) (b : Block) :
    (w.updateCache.params_cache.doPSD = w.params.doPSD ∧
      w.updateCache.params_cache.doFFT = w.params.doFFT) ∧
    (w.updateCache.params_cache.doPSD = false →
      (w.serviceFunction k inp).2.1.filter Call.isPsdWrite = []) ∧
    (w.updateCache.params_cache.doFFT = false →
      (w.serviceFunction k inp).2.1.filter Call.isFftWrite = []) ∧
    (w.updateCache.params_cache.doPSD = false → w.updateCache.params_cache.doFFT = false →
      (w.serviceFunction k inp).2.1.filter Call.isWrite = []) ∧
    (w.updateCache.params_cache.doFFT = true → inp.ready = true → inp.block = some b →
      (w.serviceFunction k inp).1.fftOut_ ≠ [] →
      (w.serviceFunction k inp).2.1.filter Call.isFftWrite =
        [Call.outFFT_write (copyVecCx (w.serviceFunction k inp).1.fftOut_) b.time]) := by
  have hw := serviceFunction_writes k w inp
  have hp : w.updateCache.params_cache.doPSD = false →
      (w.serviceFunction k inp).2.1.filter Call.isPsdWrite = [] := by
    intro h
    have h' : w.params.doPSD = false := h
    rw [hw.1, h']
    cases inp.ready <;> cases inp.block <;> rfl
  have hf : w.updateCache.params_cache.doFFT = false →
      (w.serviceFunction k inp).2.1.filter Call.isFftWrite = [] := by
    intro h
    have h' : w.params.doFFT = false := h
    rw [hw.2, h']
    cases inp.ready <;> cases inp.block <;> rfl
  refine ⟨⟨rfl, rfl⟩, hp, hf, fun h1 h2 => filter_isWrite_nil _ (hp h1) (hf h2), ?_⟩
  intro hdo hr hb hne
  have hdo' : w.params.doFFT = true := hdo
  have hvec := serviceFunction_fftOutVec k w inp b hdo' hr hb
  have hempty : (copyVecCx (w.serviceFunction k inp).1.fftOut_).isEmpty = false := by
    cases hc : (w.serviceFunction k inp).1.fftOut_ with
    | nil => exact absurd hc hne
    | cons a l => cases a; rfl
  rw [hw.2, hr, hb, hdo', hvec, hempty]
  rfl

theorem output_gating_witness :
    idleAfterBlock.psdOutVec.length = 5 ∧ idleAfterBlock.fftOutVec.length = 10 ∧
    idleAfterBlock.updateCache.params_cache.doPSD = false ∧
    idleAfterBlock.updateCache.params_cache.doFFT = false ∧
    (idleAfterBlock.serviceFunction dcKernel (delivers (onesBlock 8))).2.1.filter Call.isWrite
      = [] :=
  ⟨rfl, rfl, rfl, rfl,
   (output_gating dcKernel idleAfterBlock (delivers (onesBlock 8)) (onesBlock 8)).2.2.2.1
      rfl rfl⟩

/-! ### Transform shapes and the clearing of the averager -/

theorem calculate_calls (k : Kernel) (w : PsdProcessor) (b : Block) :
    (w.calculate k b).2 =
      if (w.transform b.complex).isNone then [Call.vecMean_clear] else [] := by
  unfold PsdProcessor.calculate PsdProcessor.transform
  cases b.complex <;> simp

theorem calculate_vecMean (k : Kernel) (w : PsdProcessor) (b : Block) :
    (w.calculate k b).1.vecMean_ =
      if (w.transform b.complex).isNone then w.vecMean_.clear else w.vecMean_ := by
  unfold PsdProcessor.calculate PsdProcessor.transform
  cases b.complex
  · cases w.realPsd_ <;> simp
  · cases w.complexPsd_ <;> simp

theorem calculate_exists (k : Kernel) (w : PsdProcessor) (b : Block) :
    ((w.calculate k b).1.transform b.complex).isSome = true ∧
    (w.calculate k b).1.transform (!b.complex) = none := by
  unfold PsdProcessor.calculate PsdProcessor.transform
  cases b.complex
  · cases w.realPsd_ <;> simp
  · cases w.complexPsd_ <;> simp

theorem psdPath_calls (k : Kernel) (w : PsdProcessor) :
    (w.psdPath k).2.filter Call.isClear = [] ∧
    (w.psdPath k).2.filter Call.isRun = (w.psdPath k).2 ∧
    (w.psdPath k).2.filter Call.isClearOrRun = (w.psdPath k).2 := by
  unfold PsdProcessor.psdPath PsdProcessor.averagePsd
  split
  · split
    · split <;> simp [Call.isClear, Call.isRun, Call.isClearOrRun]
    · simp
  · simp

theorem sriPath_no_averager (w : PsdProcessor) (b : Block) :
    (w.sriPath b).2.filter Call.isClear = [] ∧ (w.sriPath b).2.filter Call.isRun = [] ∧
    (w.sriPath b).2.filter Call.isClearOrRun = [] := by
  unfold PsdProcessor.sriPath
  split <;> simp [PsdProcessor.updateSRI, Call.isClear, Call.isRun, Call.isClearOrRun]

theorem output_no_averager (w : PsdProcessor) (b : Block) :
    (w.output b).filter Call.isClear = [] ∧ (w.output b).filter Call.isRun = [] ∧
    (w.output b).filter Call.isClearOrRun = [] := by
  unfold PsdProcessor.output
  refine ⟨?_, ?_, ?_⟩ <;> split <;> split <;>
    simp [Call.isClear, Call.isRun, Call.isClearOrRun]

theorem configure_no_averager (w : PsdProcessor) :
    w.configure.2.filter Call.isClear = [] ∧ w.configure.2.filter Call.isRun = [] ∧
    w.configure.2.filter Call.isClearOrRun = [] := by
  rw [configure_setAvgNum]
  cases w.params.numAverageChanged <;> simp [Call.isClear, Call.isRun, Call.isClearOrRun]

/-- The transform pointer that `processBlock` hands to the transform step is
`NULL` exactly when the iteration constructs. -/
theorem flushed_transform (w : PsdProcessor) (b : Block) :
    ((if b.inputQueueFlushed then w.flush else w).transform b.complex).isNone
      = w.constructs b ∧
    (if b.inputQueueFlushed then w.flush else w).vecMean_ = w.vecMean_ := by
  unfold PsdProcessor.constructs
  cases b.inputQueueFlushed
  · simp
  · simp only [if_true, Bool.true_or]
    unfold PsdProcessor.flush PsdProcessor.transform
    cases b.complex <;> simp

/-- The averager calls of `processBlock`: one `clear()` when it constructs, none
otherwise, and in either case before the `run()` of the PSD path. -/
theorem processBlock_averager (k : Kernel) (w : PsdProcessor) (b : Block) :
    (w.processBlock k b).2.filter Call.isClear =
      (if w.constructs b then [Call.vecMean_clear] else []) ∧
    (w.processBlock k b).2.filter Call.isClearOrRun =
      (if w.constructs b then [Call.vecMean_clear] else []) ++
        (w.processBlock k b).2.filter Call.isRun ∧
    (w.processBlock k b).2.filter Call.isRun =
      (((if b.inputQueueFlushed then w.flush else w).calculate k b).1.psdPath k).2 := by
  have hft := (flushed_transform w b).1
  have hcalc := calculate_calls k (if b.inputQueueFlushed then w.flush else w) b
  rw [hft] at hcalc
  unfold PsdProcessor.processBlock
  simp only [List.filter_append, (psdPath_calls k _).1, (psdPath_calls k _).2.1,
    (psdPath_calls k _).2.2, (sriPath_no_averager _ b).1, (sriPath_no_averager _ b).2.1,
    (sriPath_no_averager _ b).2.2, (output_no_averager _ b).1, (output_no_averager _ b).2.1,
    (output_no_averager _ b).2.2, List.append_nil, hcalc]
  cases w.constructs b <;> simp [Call.isClear, Call.isRun, Call.isClearOrRun]

theorem configure_constructs (w : PsdProcessor) (b : Block) :
    w.configure.1.constructs b = w.constructs b := by
  have hct := configure_transform w
  unfold PsdProcessor.constructs PsdProcessor.transform
  cases b.complex
  · simp only [Bool.false_eq_true, if_false]
    rw [isNone_congr hct.1]
  · simp only [if_true]
    rw [isNone_congr hct.2.1]

/-- C13: transform-shape invariant.  In every reachable state of a worker at
most one of `realPsd_` and `complexPsd_` is non-null.  After an iteration that
processed a block, the transform of the block's mode exists and the other does
not.  An iteration that constructs a transform (the pointer for the block's
mode is null, or the block carries the flush flag) calls `clear()` on the
averager exactly once, before the `run()` of the PSD path, which so receives
the cleared averager; an iteration that reuses the transform does not call
`clear()` and hands the averager on as lines 228-232 left it. -/
theorem transform_shape_invariant (k : Kernel) (w : PsdProcessor)
    (hreach : PsdProcessor.Reachable k w) (inp : Input) (b : Block)
    (hr : inp.ready = true) (hb : inp.block = some b) :
    (w.realPsd_ = none ∨ w.complexPsd_ = none) ∧
    (((w.serviceFunction k inp).1.transform b.complex).isSome = true ∧
      (w.serviceFunction k inp).1.transform (!b.complex) = none) ∧
    (w.constructs b = true →
      (w.serviceFunction k inp).2.1.filter Call.isClear = [Call.vecMean_clear] ∧
      (w.serviceFunction k inp).2.1.filter Call.isClearOrRun =
        Call.vecMean_clear :: (w.serviceFunction k inp).2.1.filter Call.isRun ∧
      ((if b.inputQueueFlushed then w.configure.1.flush else w.configure.1).calculate k b).1.vecMean_
        = w.nextVecMean.clear) ∧
    (w.constructs b = false →
      (w.serviceFunction k inp).2.1.filter Call.isClear = [] ∧
      ((if b.inputQueueFlushed then w.configure.1.flush else w.configure.1).calculate k b).1.vecMean_
        = w.nextVecMean) := by
  have hsf := serviceFunction_processed k w inp b hr hb
  have hpb := processBlock_state k w.configure.1 b
  have hpa := processBlock_averager k w.configure.1 b
  have hca := configure_no_averager w
  have hcon := configure_constructs w b
  have hft := flushed_transform w.configure.1 b
  have hcv := calculate_vecMean k (if b.inputQueueFlushed then w.configure.1.flush
    else w.configure.1) b
  have hce := calculate_exists k (if b.inputQueueFlushed then w.configure.1.flush
    else w.configure.1) b
  have hnv : w.configure.1.vecMean_ = w.nextVecMean := configure_vecMean w
  rw [hft.1, hft.2, hcon, hnv] at hcv
  rw [hcon] at hpa
  refine ⟨(reachable_coherent k w hreach).1, ?_, ?_, ?_⟩
  · unfold PsdProcessor.transform at hce ⊢
    rw [hsf.2.2.2.2.1, hsf.2.2.2.2.2.1, hpb.2.2.1, hpb.2.2.2.1]
    exact hce
  · intro hc
    rw [hc] at hpa hcv
    refine ⟨?_, ?_, hcv⟩
    · rw [hsf.1, List.filter_append, hca.1, List.nil_append, hpa.1]
      rfl
    · rw [hsf.1, List.filter_append, List.filter_append, hca.2.2, hca.2.1, List.nil_append,
        List.nil_append, hpa.2.1]
      rfl
  · intro hc
    rw [hc] at hpa hcv
    refine ⟨?_, hcv⟩
    rw [hsf.1, List.filter_append, hca.1, List.nil_append, hpa.1]
    rfl

theorem transform_shape_invariant_witness :
    PsdProcessor.Reachable dcKernel (freshWorker 1) ∧
    (delivers (onesBlock 8)).ready = true ∧
    (delivers (onesBlock 8)).block = some (onesBlock 8) ∧
    (freshWorker 1).constructs (onesBlock 8) = true ∧
    ((((freshWorker 1).serviceFunction dcKernel (delivers (onesBlock 8))).1.transform
        (onesBlock 8).complex).isSome = true ∧
      ((freshWorker 1).serviceFunction dcKernel (delivers (onesBlock 8))).1.transform
        (!(onesBlock 8).complex) = none) ∧
    ((freshWorker 1).serviceFunction dcKernel (delivers (onesBlock 8))).2.1.filter Call.isClear
      = [Call.vecMean_clear] :=
  ⟨PsdProcessor.Reachable.new 8 0 1 0 true true false zeroParams, rfl, rfl, rfl,
   (transform_shape_invariant dcKernel (freshWorker 1)
      (PsdProcessor.Reachable.new 8 0 1 0 true true false zeroParams)
      (delivers (onesBlock 8)) (onesBlock 8) rfl rfl).2.1,
   ((transform_shape_invariant dcKernel (freshWorker 1)
      (PsdProcessor.Reachable.new 8 0 1 0 true true false zeroParams)
      (delivers (onesBlock 8)) (onesBlock 8) rfl rfl).2.2.1 rfl).1⟩

/-! ### Queue flush -/

theorem psdPath_avgNum (k : Kernel) (w : PsdProcessor) :
    (w.psdPath k).1.vecMean_.avgNum = w.vecMean_.avgNum := by
  unfold PsdProcessor.psdPath
  split
  · simp only []
    rw [(logPsd_frame k _).2.2.2.2.1]
    unfold PsdProcessor.averagePsd VectorMean.run
    split
    · split <;> split <;> simp_all
    · rfl
  · rfl

theorem serviceFunction_avgNum (k : Kernel) (w : PsdProcessor) (inp : Input) :
    (w.serviceFunction k inp).1.vecMean_.avgNum = w.nextVecMean.avgNum := by
  have hnv : w.configure.1.vecMean_ = w.nextVecMean := configure_vecMean w
  cases he : inp.early
  · have hr : inp.ready = true := by
      cases h : inp.ready
      · simp [Input.early, h] at he
      · rfl
    obtain ⟨b, hb⟩ : ∃ b, inp.block = some b := by
      cases h : inp.block with
      | none => simp [Input.early, h] at he
      | some b => exact ⟨b, rfl⟩
    rw [(serviceFunction_processed k w inp b hr hb).2.2.2.1,
      (processBlock_state k w.configure.1 b).2.1, psdPath_avgNum, calculate_vecMean,
      (flushed_transform w.configure.1 b).2, hnv]
    cases ((if b.inputQueueFlushed then w.configure.1.flush
      else w.configure.1).transform b.complex).isNone <;> rfl
  · have : (w.serviceFunction k inp).1.vecMean_ = w.configure.1.vecMean_ := by
      unfold PsdProcessor.serviceFunction
      cases hr : inp.ready
      · simp
      · cases hb : inp.block with
        | none => cases inp.eos <;> simp
        | some b => simp [Input.early, hr, hb] at he
    rw [this, hnv]

/-- In every reachable state the averager is configured for the live
`numAverage`, or will be by the pending `setAvgNum`. -/
theorem reachable_avgNum (k : Kernel) (w : PsdProcessor)
    (h : PsdProcessor.Reachable k w) : w.nextVecMean.avgNum = w.params.numAverage := by
  induction h with
  | new fftSize overlap numAvg logCoeff doFFT doPSD rfFreqUnits uninit => rfl
  | updateFftSize fftSize _ ih => exact ih
  | updateOverlap overlap _ ih => exact ih
  | updateNumAvg avg _ _ => rfl
  | forceSRIUpdate _ ih => exact ih
  | updateActions psd fft _ ih => exact ih
  | updateRfFreqUnits enable _ ih => exact ih
  | updateLogCoefficient logCoeff _ ih => exact ih
  | flush _ ih => exact ih
  | @serviceFunction v inp _ ih =>
    have hp := serviceFunction_params k v inp
    have ha := serviceFunction_avgNum k v inp
    unfold PsdProcessor.nextVecMean at ih ⊢
    rw [hp]
    simp only [Bool.false_eq_true, if_false]
    rw [ha]
    exact ih

theorem psdPath_run_call (k : Kernel) (w : PsdProcessor) (hd : w.params_cache.doPSD = true)
    (hK : 1 < w.params_cache.numAverage) :
    (w.psdPath k).2 = [Call.vecMean_run (decide (w.vecMean_.count + 1 = w.vecMean_.avgNum))] := by
  unfold PsdProcessor.psdPath PsdProcessor.averagePsd VectorMean.run
  simp only [hd, if_true, gt_iff_lt, hK]
  by_cases h : w.vecMean_.count + 1 = w.vecMean_.avgNum
  · simp [h]
  · simp [h]

/-- The iteration that processes a block carrying the queue-flushed flag, with
averaging on: the averager is cleared and then run once without emitting, no
PSD vector is written, and the worker is left as after the first block of a
run. -/
theorem serviceFunction_flushed (k : Kernel) (hk : k.Shaped) (w : PsdProcessor) (K N : Nat)
    (cx : Bool) (inp : Input) (b : Block) (hK : 1 < K) (hN : 1 ≤ N)
    (hnum : w.params.numAverage = K) (hpsd : w.params.doPSD = true)
    (hfft : w.params.fftSz = N) (havg : w.nextVecMean.avgNum = K)
    (hr : inp.ready = true) (hb : inp.block = some b) (hflag : b.inputQueueFlushed = true)
    (hcx : b.complex = cx) (hsz : b.sized N = true) :
    (w.serviceFunction k inp).1.InRun K N cx 1 ∧
    (w.serviceFunction k inp).2.1.filter Call.isPsdWrite = [] ∧
    (w.serviceFunction k inp).2.1.filter Call.isClearOrRun
      = [Call.vecMean_clear, Call.vecMean_run false] ∧
    ((w.serviceFunction k inp).1.transform cx = some N ∧
      (w.serviceFunction k inp).1.transform (!cx) = none) ∧
    (w.serviceFunction k inp).1.vecMean_.count = 1 := by
  have hsf := serviceFunction_processed k w inp b hr hb
  have hcc := configure_cache w
  have hpb := processBlock_state k w.configure.1 b
  have hpa := processBlock_averager k w.configure.1 b
  have hca := configure_no_averager w
  have hsw := (serviceFunction_writes k w inp).1
  have hnv : w.configure.1.vecMean_ = w.nextVecMean := configure_vecMean w
  have hcon : w.configure.1.constructs b = true := by
    unfold PsdProcessor.constructs
    rw [hflag]; rfl
  simp only [hflag, if_true] at hpb hpa
  rw [hcon] at hpa
  simp only [if_true] at hpa
  -- the transform step on the flushed worker
  have hv_fft : w.configure.1.flush.params_cache.fftSz = N := by
    show w.configure.1.params_cache.fftSz = N
    rw [hcc.1]; exact hfft
  have hv_none : w.configure.1.flush.transform b.complex = none := by
    unfold PsdProcessor.transform PsdProcessor.flush
    cases b.complex <;> rfl
  have hsh := calculate_shape k hk w.configure.1.flush b N hsz hv_fft
    (by intro m hm; rw [hv_none] at hm; cases hm)
  have hcf := calculate_frame k w.configure.1.flush b
  rw [hcx] at hsh
  have hc_vec : (w.configure.1.flush.calculate k b).1.vecMean_ = w.nextVecMean.clear := by
    rw [hsh.2.2.2.2, ← hcx, hv_none, ← hnv]
    rfl
  have hc_out : (w.configure.1.flush.calculate k b).1.psdOut_ ≠ [] := by
    intro h
    have := hsh.1
    rw [h] at this
    cases cx <;> simp at this
    omega
  have hc_psd : (w.configure.1.flush.calculate k b).1.params_cache.doPSD = true := by
    rw [hcf.2.1]
    show w.configure.1.params_cache.doPSD = true
    rw [hcc.1]; exact hpsd
  have hc_num : (w.configure.1.flush.calculate k b).1.params_cache.numAverage = K := by
    rw [hcf.2.1]
    show w.configure.1.params_cache.numAverage = K
    rw [hcc.1]; exact hnum
  have hc_cnt : (w.configure.1.flush.calculate k b).1.vecMean_.count = 0 := by
    rw [hc_vec]; rfl
  have hc_avg : (w.configure.1.flush.calculate k b).1.vecMean_.avgNum = K := by
    rw [hc_vec]; exact havg
  have hpp := (psdPath_on k (w.configure.1.flush.calculate k b).1 hc_psd hc_out).2.2
    (by rw [hc_num]; exact hK) (Or.inl hc_cnt) (by rw [hc_cnt, hc_avg]; omega)
  have hrun := psdPath_run_call k (w.configure.1.flush.calculate k b).1 hc_psd
    (by rw [hc_num]; exact hK)
  have hdec : decide ((w.configure.1.flush.calculate k b).1.vecMean_.count + 1
      = (w.configure.1.flush.calculate k b).1.vecMean_.avgNum) = false := by
    rw [hc_cnt, hc_avg]
    exact decide_eq_false (by omega)
  rw [hdec] at hrun
  -- the new state
  have hn_params := serviceFunction_params k w inp
  have hn_next : (w.serviceFunction k inp).1.nextVecMean
      = ((w.configure.1.flush.calculate k b).1.psdPath k).1.vecMean_ := by
    unfold PsdProcessor.nextVecMean
    rw [hn_params, hsf.2.2.2.1, hpb.2.1]
    simp
  have hn_tr : (w.serviceFunction k inp).1.transform cx = some N ∧
      (w.serviceFunction k inp).1.transform (!cx) = none := by
    have h1 := hsh.2.2.1
    have h2 := hsh.2.2.2.1
    unfold PsdProcessor.transform at h1 h2 ⊢
    rw [hsf.2.2.2.2.1, hsf.2.2.2.2.2.1, hpb.2.2.1, hpb.2.2.2.1]
    exact ⟨h1, h2⟩
  have hn_coh : (w.serviceFunction k inp).1.Coherent := by
    unfold PsdProcessor.Coherent
    have h1 := hn_tr.1
    have h2 := hn_tr.2
    unfold PsdProcessor.transform at h1 h2
    rw [hn_params]
    cases cx
    · simp only [Bool.false_eq_true, if_false, Bool.not_false, if_true] at h1 h2
      rw [h1, h2]
      simp [hfft]
    · simp only [Bool.false_eq_true, if_false, Bool.not_true, if_true] at h1 h2
      rw [h1, h2]
      simp [hfft]
  have hn_base : (w.serviceFunction k inp).1.params.numAverage = K ∧
      (w.serviceFunction k inp).1.params.doPSD = true ∧
      (w.serviceFunction k inp).1.params.fftSz = N := by
    rw [hn_params]; exact ⟨hnum, hpsd, hfft⟩
  refine ⟨⟨hn_base.1, hn_base.2.1, hn_base.2.2, hn_coh, ?_,
    fun _ => ⟨?_, Or.inr ⟨?_, ?_⟩⟩⟩, ?_, ?_, hn_tr, ?_⟩
  · rw [hn_next, hpp.2.2.2]; exact hc_avg
  · rw [hn_next, hpp.2.1, hc_cnt, Nat.mod_eq_of_lt hK]
  · rw [hn_tr.1]; rfl
  · rw [hn_next]; exact hpp.2.2.1
  · rw [hsw, hr, hb]
    simp only []
    rw [hsf.2.2.2.2.2.2.1, hpb.1, hpp.1]
    simp
  · rw [hsf.1, List.filter_append, hca.2.2, List.nil_append, hpa.2.1, hpa.2.2, hrun]
    rfl
  · rw [hsf.2.2.2.1, hpb.2.1, hpp.2.1, hc_cnt]

theorem psdPath_no_emit (k : Kernel) (w : PsdProcessor) (hd : w.params_cache.doPSD = true)
    (hK : 1 < w.params_cache.numAverage)
    (hc : w.vecMean_.count + 1 ≠ w.vecMean_.avgNum) : (w.psdPath k).1.psdOutVec = [] := by
  have ha : w.averagePsd.1.psdOutVec = [] := by
    unfold PsdProcessor.averagePsd VectorMean.run
    simp [hK, hc]
  have hl := (logPsd_frame k w.averagePsd.1).2.2.2.2.2.2.2.2
  unfold PsdProcessor.psdPath
  simp only [hd, if_true]
  rw [ha] at hl
  exact List.length_eq_zero.mp hl

/-- With averaging on, a PSD vector is written only in an iteration whose
`vecMean_.run()` returned true: what is written is the averager's output. -/
theorem psd_write_averaged (k : Kernel) (w : PsdProcessor) (inp : Input) (b : Block)
    (hr : inp.ready = true) (hb : inp.block = some b) (hpsd : w.params.doPSD = true)
    (hK : 1 < w.params.numAverage)
    (hwr : (w.serviceFunction k inp).2.1.filter Call.isPsdWrite ≠ []) :
    (w.serviceFunction k inp).2.1.filter Call.isRun = [Call.vecMean_run true] := by
  have hsf := serviceFunction_processed k w inp b hr hb
  have hcc := configure_cache w
  have hpb := processBlock_state k w.configure.1 b
  have hpa := processBlock_averager k w.configure.1 b
  have hca := configure_no_averager w
  have hsw := (serviceFunction_writes k w inp).1
  have hcf := calculate_frame k (if b.inputQueueFlushed then w.configure.1.flush
    else w.configure.1) b
  have hflush : (if b.inputQueueFlushed then w.configure.1.flush else w.configure.1).params_cache
      = w.configure.1.params_cache := by split <;> rfl
  have hc_psd : ((if b.inputQueueFlushed then w.configure.1.flush
      else w.configure.1).calculate k b).1.params_cache.doPSD = true := by
    rw [hcf.2.1, hflush, hcc.1]; exact hpsd
  have hc_num : 1 < ((if b.inputQueueFlushed then w.configure.1.flush
      else w.configure.1).calculate k b).1.params_cache.numAverage := by
    rw [hcf.2.1, hflush, hcc.1]; exact hK
  have hrun := psdPath_run_call k _ hc_psd hc_num
  rw [hsf.1, List.filter_append, hca.2.1, List.nil_append, hpa.2.2, hrun]
  by_cases hc : ((if b.inputQueueFlushed then w.configure.1.flush
      else w.configure.1).calculate k b).1.vecMean_.count + 1
      = ((if b.inputQueueFlushed then w.configure.1.flush
      else w.configure.1).calculate k b).1.vecMean_.avgNum
  · rw [decide_eq_true hc]
  · exfalso
    apply hwr
    have hempty := psdPath_no_emit k _ hc_psd hc_num hc
    rw [hsw, hr, hb]
    simp only []
    rw [hsf.2.2.2.2.2.2.1, hpb.1, hempty]
    simp

theorem serviceLoop_params (k : Kernel) (inps : List Input) :
    ∀ w : PsdProcessor,
      (w.serviceLoop k inps).1.params.numAverage = w.params.numAverage ∧
      (w.serviceLoop k inps).1.params.doPSD = w.params.doPSD := by
  induction inps with
  | nil => intro w; exact ⟨rfl, rfl⟩
  | cons inp rest ih =>
    intro w
    have h := ih (w.serviceFunction k inp).1
    rw [serviceFunction_params] at h
    exact h

/-- C14: an upstream queue flush resets the pipeline.  Take a worker with
`doPSD` on, `numAverage = K > 1` and the averager configured for `K` (or about to
be, by the pending `setAvgNum`), whatever its transforms and the count its
averager holds.  The iteration that processes a block carrying the
queue-flushed flag constructs the transform anew (afterwards only the one of
the block's mode exists), calls `clear()` on the averager and then `run()` once,
which does not emit: the averager has counted one input and no PSD vector is
written.  In the following run of unflagged blocks of the same mode, block
number `i + 2` (the flagged block being number 1) is written exactly once when
`K` divides `i + 2` and not at all otherwise: nothing up to block `K - 1`, and
on block `K` exactly one vector, the output of the averager. -/
theorem flush_resets_pipeline (k : Kernel) (hk : k.Shaped) (w : PsdProcessor) (K N : Nat)
    (cx : Bool) (inp : Input) (b : Block) (rest : List Input) (i : Nat)
    (hK : 1 < K) (hN : 1 ≤ N) (hnum : w.params.numAverage = K)
    (hpsd : w.params.doPSD = true) (hfft : w.params.fftSz = N)
    (havg : w.nextVecMean.avgNum = K)
    (hr : inp.ready = true) (hb : inp.block = some b) (hflag : b.inputQueueFlushed = true)
    (hcx : b.complex = cx) (hsz : b.sized N = true)
    (hrest : rest.all (Input.steady cx N) = true) (hi : i < rest.length) :
    (w.constructs b = true ∧
      (w.serviceFunction k inp).1.transform cx = some N ∧
      (w.serviceFunction k inp).1.transform (!cx) = none) ∧
    ((w.serviceFunction k inp).2.1.filter Call.isClearOrRun
        = [Call.vecMean_clear, Call.vecMean_run false] ∧
      (w.serviceFunction k inp).1.vecMean_.count = 1) ∧
    (w.serviceFunction k inp).2.1.filter Call.isPsdWrite = [] ∧
    ((((w.serviceFunction k inp).1.serviceLoop k (rest.take i)).1.serviceFunction k
        (rest.get ⟨i, hi⟩)).2.1.filter Call.isPsdWrite).length
      = (if K ∣ i + 2 then 1 else 0) ∧
    (i + 2 < K →
      (((w.serviceFunction k inp).1.serviceLoop k (rest.take i)).1.serviceFunction k
        (rest.get ⟨i, hi⟩)).2.1.filter Call.isPsdWrite = []) ∧
    (i + 2 = K →
      ((((w.serviceFunction k inp).1.serviceLoop k (rest.take i)).1.serviceFunction k
        (rest.get ⟨i, hi⟩)).2.1.filter Call.isPsdWrite).length = 1 ∧
      (((w.serviceFunction k inp).1.serviceLoop k (rest.take i)).1.serviceFunction k
        (rest.get ⟨i, hi⟩)).2.1.filter Call.isRun = [Call.vecMean_run true]) := by
  have hfl := serviceFunction_flushed k hk w K N cx inp b hK hN hnum hpsd hfft havg hr hb
    hflag hcx hsz
  have hrun := serviceLoop_inRun k hk K N cx (by omega) hN rest (w.serviceFunction k inp).1 1
    hfl.1 hrest i hi
  have hidx : 1 + i + 1 = i + 2 := by omega
  rw [hidx] at hrun
  have hcon : w.constructs b = true := by
    unfold PsdProcessor.constructs
    rw [hflag]; rfl
  refine ⟨⟨hcon, hfl.2.2.2.1⟩, ⟨hfl.2.2.1, hfl.2.2.2.2⟩, hfl.2.1, hrun, ?_, ?_⟩
  · intro hlt
    have hnd : ¬ K ∣ i + 2 := fun hd => by
      have := Nat.le_of_dvd (by omega) hd
      omega
    rw [if_neg hnd] at hrun
    exact List.length_eq_zero.mp hrun
  · intro heq
    have hd : K ∣ i + 2 := by rw [heq]
    rw [if_pos hd] at hrun
    refine ⟨hrun, ?_⟩
    have hmem : rest.get ⟨i, hi⟩ ∈ rest := List.get_mem rest i hi
    have hst := List.all_eq_true.mp hrest _ hmem
    obtain ⟨c, hcr, hcb, _, _, _⟩ := steady_spec cx N _ hst
    have hp := serviceLoop_params k (rest.take i) (w.serviceFunction k inp).1
    rw [serviceFunction_params] at hp
    apply psd_write_averaged k _ _ c hcr hcb
    · rw [hp.2]; exact hpsd
    · rw [hp.1]; show 1 < w.params.numAverage; rw [hnum]; exact hK
    · intro h
      rw [h] at hrun
      exact absurd hrun (by decide)

theorem flush_resets_pipeline_witness :
    dcKernel.Shaped ∧ 1 < 4 ∧ 1 ≤ 8 ∧ afterTwoBlocks.params.numAverage = 4 ∧
    afterTwoBlocks.params.doPSD = true ∧ afterTwoBlocks.params.fftSz = 8 ∧
    afterTwoBlocks.nextVecMean.avgNum = 4 ∧ afterTwoBlocks.vecMean_.count = 2 ∧
    (delivers (flushedBlock 8)).ready = true ∧
    (delivers (flushedBlock 8)).block = some (flushedBlock 8) ∧
    (flushedBlock 8).inputQueueFlushed = true ∧ (flushedBlock 8).complex = false ∧
    (flushedBlock 8).sized 8 = true ∧
    [delivers (onesBlock 8), delivers (onesBlock 8), delivers (onesBlock 8)].all
      (Input.steady false 8) = true ∧
    (afterTwoBlocks.serviceFunction dcKernel (delivers (flushedBlock 8))).2.1.filter
      Call.isPsdWrite = [] ∧
    ((((afterTwoBlocks.serviceFunction dcKernel (delivers (flushedBlock 8))).1.serviceLoop
        dcKernel ([delivers (onesBlock 8), delivers (onesBlock 8),
          delivers (onesBlock 8)].take 2)).1.serviceFunction dcKernel
        ([delivers (onesBlock 8), delivers (onesBlock 8), delivers (onesBlock 8)].get
          ⟨2, by decide⟩)).2.1.filter Call.isPsdWrite).length
      = (if 4 ∣ 2 + 2 then 1 else 0) :=
  ⟨dcKernel_shaped, by decide, by decide, rfl, rfl, rfl, rfl, rfl, rfl, rfl, rfl, rfl,
   by decide, by decide,
   (flush_resets_pipeline dcKernel dcKernel_shaped afterTwoBlocks 4 8 false
      (delivers (flushedBlock 8)) (flushedBlock 8)
      [delivers (onesBlock 8), delivers (onesBlock 8), delivers (onesBlock 8)] 2
      (by decide) (by decide) rfl rfl rfl rfl rfl rfl rfl rfl (by decide) (by decide)
      (by decide)).2.2.1,
   (flush_resets_pipeline dcKernel dcKernel_shaped afterTwoBlocks 4 8 false
      (delivers (flushedBlock 8)) (flushedBlock 8)
      [delivers (onesBlock 8), delivers (onesBlock 8), delivers (onesBlock 8)] 2
      (by decide) (by decide) rfl rfl rfl rfl rfl rfl rfl rfl (by decide) (by decide)
      (by decide)).2.2.2.1⟩

end Psd
